import Mathlib

/-!
Verification development for the caddyy import pipeline.

Shallow embedding of the core import-pipeline code:
  - backend/services/media_scanner.py   (filename parsing, quality/group extraction)
  - backend/services/media_matcher.py   (confidence scoring and match classification)
  - backend/services/file_organizer.py  (rename planning, validation, execution)
  - backend/api/import_media.py         (session registry and state machine)

Strings are modelled as `List Char` (ASCII fragment of Python semantics),
Python floats as `ℚ`, Python dicts keyed by strings as association lists,
and the filesystem / collection store / configuration collaborators as
explicit parameters.  Python regular expressions are embedded through a
small fueled backtracking matcher whose alternative order reproduces the
backtracking priority of `re` (leftmost match, greedy tries longer first,
lazy tries shorter first); file-stat fields (size, mtime) that no claim
touches are omitted from the scanned records.
-/

namespace Caddyy

/-! ### Character and string utilities (ASCII fragment of Python `str`) -/

/-- Python `\s` / `str.split()` whitespace on the ASCII range. -/
def isPySpace (c : Char) : Bool :=
  c == ' ' || c == '\t' || c == '\n' || c == '\r' || c == Char.ofNat 11 || c == Char.ofNat 12

/-- Python `\w` on the ASCII range: letters, digits and underscore. -/
def isWordChar (c : Char) : Bool :=
  c.isAlphanum || c == '_'

/-- Helper for `str.split()`: accumulate the current word (reversed) while
splitting on whitespace runs, dropping empty pieces. -/
def splitWsAux : List Char → List Char → List (List Char)
  | [], acc => if acc.isEmpty then [] else [acc.reverse]
  | c :: rest, acc =>
    if isPySpace c then
      if acc.isEmpty then splitWsAux rest [] else acc.reverse :: splitWsAux rest []
    else splitWsAux rest (c :: acc)

/-- Python `str.split()` with no argument: split on whitespace runs. -/
def splitWs (s : List Char) : List (List Char) := splitWsAux s []

/-- Python `' '.join(words)`. -/
def joinSpaces (ws : List (List Char)) : List Char := List.intercalate [' '] ws

/-- Python `str.strip()`. -/
def trimWs (s : List Char) : List Char :=
  ((s.dropWhile isPySpace).reverse.dropWhile isPySpace).reverse

/-- Model of `title.replace('.', ' ').replace('_', ' ').strip()` as used by the scanner. -/
def dotsToSpaces (s : List Char) : List Char :=
  trimWs (s.map (fun c => if c == '.' || c == '_' then ' ' else c))

/-- Decimal digits of a natural number, most significant first (fueled). -/
def natDigitsAux : Nat → Nat → List Char
  | 0, _ => []
  | fuel + 1, n =>
    if n < 10 then [Char.ofNat (48 + n)]
    else natDigitsAux fuel (n / 10) ++ [Char.ofNat (48 + n % 10)]

/-- Python `str(n)` for a natural number. -/
def natStr (n : Nat) : List Char := natDigitsAux (n + 1) n

/-- Python `str(i)` for an integer. -/
def intStr (i : Int) : List Char :=
  if i < 0 then '-' :: natStr i.natAbs else natStr i.natAbs

/-- Python `f"{n:02d}"`. -/
def pad2 (n : Nat) : List Char :=
  let d := natStr n
  if d.length < 2 then '0' :: d else d

/-- Numeric value of a digit string (`int(s)` for a `\d+` capture). -/
def digitsToNat (l : List Char) : Nat :=
  l.foldl (fun n c => n * 10 + (c.toNat - 48)) 0

/-! ### POSIX path model (Python `pathlib.Path` on inputs without
trailing slashes or redundant separators) -/

/-- Model of `Path(p).name`: the part after the last separator. -/
def pathName (p : List Char) : List Char :=
  (p.reverse.takeWhile (fun c => c != '/')).reverse

/-- Model of `str(Path(p).parent)` for paths that contain a separator;
`"."` when there is none. -/
def pathParent (p : List Char) : List Char :=
  let r := p.reverse.dropWhile (fun c => c != '/')
  if r.isEmpty then ['.'] else (r.drop 1).reverse

/-- Model of `str(Path(a) / b)` for a base without trailing slash. -/
def posixJoin (a b : List Char) : List Char := a ++ '/' :: b

/-- Model of `Path(p).suffix`: extension of the final component, empty unless the
last dot is at an interior position of the name. -/
def pathSuffix (p : List Char) : List Char :=
  let n := pathName p
  match n.reverse.findIdx? (fun c => c == '.') with
  | none => []
  | some k =>
    let i := n.length - 1 - k
    if 0 < i ∧ i < n.length - 1 then n.drop i else []

/-! ### A fueled backtracking regex matcher

Just enough of Python `re` for the patterns of `media_scanner.py`:
character classes, sequencing, greedy and lazy repetition, optional
groups, capture groups and the end anchor.  The list of outcomes of
`mtch` is ordered by backtracking priority, so the head of the list is
the match Python would produce. -/

/-- Single-character matchers (`re` character classes). -/
inductive RC
  | lit (c : Char)
  | liti (c : Char)
  | digit
  | wordc
  | space
  | dot
  | nonRBracket
  | nonRBrace
  | upperOrDigit
deriving DecidableEq, Repr

def RC.test : RC → Char → Bool
  | .lit c, x => x == c
  | .liti c, x => x.toLower == c.toLower
  | .digit, x => x.isDigit
  | .wordc, x => isWordChar x
  | .space, x => isPySpace x
  | .dot, x => x != '\n'
  | .nonRBracket, x => x != ']'
  | .nonRBrace, x => x != Char.ofNat 125
  | .upperOrDigit, x => ('A' ≤ x && x ≤ 'Z') || x.isDigit

/-- Regex abstract syntax. -/
inductive Rx
  | eps
  | cls (rc : RC)
  | seq (r1 r2 : Rx)
  | star (r : Rx) (greedy : Bool)
  | opt (r : Rx) (greedy : Bool)
  | grp (i : Nat) (r : Rx)
  | eos
deriving DecidableEq, Repr

/-- Captured groups: later writes shadow earlier ones (Python keeps the
last match of a group). -/
def Caps := List (Nat × List Char)

/-- Syntactic size of a regex, to budget the matcher fuel. -/
def rxSize : Rx → Nat
  | .eps => 1
  | .eos => 1
  | .cls _ => 1
  | .seq r1 r2 => rxSize r1 + rxSize r2 + 1
  | .star r _ => rxSize r + 1
  | .opt r _ => rxSize r + 1
  | .grp _ r => rxSize r + 1

/-- All ways to match `r` against a prefix of `s`, each returning the
rest of the input and the captures, in backtracking priority order.
The recursion is structural on `fuel`, which is consumed on every
descent; a star iteration must consume input, as in `re`, so
`(rxSize r + 2) * (s.length + 2)` fuel is always enough. -/
def mtch : Nat → Rx → List Char → Caps → List (List Char × Caps)
  | 0, _, _, _ => []
  | _ + 1, .eps, s, k => [(s, k)]
  | _ + 1, .eos, s, k => if s.isEmpty then [(s, k)] else []
  | _ + 1, .cls _, [], _ => []
  | _ + 1, .cls rc, c :: s, k => if rc.test c then [(s, k)] else []
  | fuel + 1, .seq r1 r2, s, k =>
    (mtch fuel r1 s k).flatMap (fun p => mtch fuel r2 p.1 p.2)
  | fuel + 1, .opt r g, s, k =>
    if g then mtch fuel r s k ++ [(s, k)] else (s, k) :: mtch fuel r s k
  | fuel + 1, .star r g, s, k =>
    let cont := ((mtch fuel r s k).filter (fun p => p.1.length < s.length)).flatMap
      (fun p => mtch fuel (.star r g) p.1 p.2)
    if g then cont ++ [(s, k)] else (s, k) :: cont
  | fuel + 1, .grp i r, s, k =>
    (mtch fuel r s k).map (fun p => (p.1, (i, s.take (s.length - p.1.length)) :: p.2))

/-- Fuel that lets the matcher run to completion. -/
def mtchFuel (r : Rx) (s : List Char) : Nat :=
  (rxSize r + 2) * (s.length + 2)

/-- Model of `re.match(pattern, s)`: anchored at the start; first outcome in
backtracking order.  Our patterns all end in `$`, so the remainder of a
successful match is empty. -/
def reMatch (r : Rx) (s : List Char) : Option Caps :=
  ((mtch (mtchFuel r s) r s []).head?).map Prod.snd

/-- Model of `re.search(pattern, s)`: try each start position left to right. -/
def reSearch (r : Rx) (s : List Char) : Option Caps :=
  match (mtch (mtchFuel r s) r s []).head? with
  | some p => some p.2
  | none =>
    match s with
    | [] => none
    | _ :: t => reSearch r t

/-- Model of `m.group(i)`: `none` for a group that never matched. -/
def capGet (caps : Caps) (i : Nat) : Option (List Char) :=
  (caps.find? (fun p => p.1 == i)).map Prod.snd

/-- Sequence a list of regexes. -/
def rcat (l : List Rx) : Rx := l.foldr Rx.seq Rx.eps

/-- One-or-more repetition. -/
def rplus (r : Rx) (greedy : Bool) : Rx := .seq r (.star r greedy)

/-- Case-insensitive literal (patterns compiled with `re.IGNORECASE`). -/
def li (c : Char) : Rx := .cls (.liti c)

/-- Case-sensitive literal. -/
def ls (c : Char) : Rx := .cls (.lit c)

/-- Model of `\s*` (greedy). -/
def wsStar : Rx := .star (.cls .space) true

/-- Model of `(.+?)` -/
def lazyDotPlus : Rx := rplus (.cls .dot) false

/-- Model of `\d{1,2}` -/
def digits12 : Rx := .seq (.cls .digit) (.opt (.cls .digit) true)

/-- Model of `\d{1,3}` -/
def digits13 : Rx :=
  .seq (.cls .digit) (.opt (.seq (.cls .digit) (.opt (.cls .digit) true)) true)

/-- Model of `\d{4}` -/
def digits4 : Rx :=
  rcat [.cls .digit, .cls .digit, .cls .digit, .cls .digit]

/-- Opening brace character. -/
def lbraceChar : Char := Char.ofNat 123

/-- Closing brace character. -/
def rbraceChar : Char := Char.ofNat 125

/-! ### `MediaScanner` patterns (media_scanner.py lines 71-96)

Each `TV_EPISODE_PATTERNS` / `MOVIE_PATTERNS` entry is transcribed as an
`Rx`; group numbers follow the Python pattern. All are applied with
`re.IGNORECASE`. -/

/-- TV pattern 1:
`^(.+?)\s*-\s*S(\d{1,2})E(\d{1,3})(?:\s*-\s*(.+?))?(?:\s*[([^]]+)])?(?:\s*[([^]]+)])?(?:\s*\x7b([^\x7d]+)\x7d)?\.(\w+)$` -/
def tvPattern1 : Rx :=
  rcat [.grp 1 lazyDotPlus, wsStar, li '-', wsStar, li 'S', .grp 2 digits12,
    li 'E', .grp 3 digits13,
    .opt (rcat [wsStar, li '-', wsStar, .grp 4 lazyDotPlus]) true,
    .opt (rcat [wsStar, li '[', .grp 5 (rplus (.cls .nonRBracket) true), li ']']) true,
    .opt (rcat [wsStar, li '[', .grp 6 (rplus (.cls .nonRBracket) true), li ']']) true,
    .opt (rcat [wsStar, li lbraceChar, .grp 7 (rplus (.cls .nonRBrace) true), li rbraceChar]) true,
    li '.', .grp 8 (rplus (.cls .wordc) true), .eos]

/-- TV pattern 2:
`^(.+?)\s+S(\d{1,2})E(\d{1,3})(?:\s+(.+?))?(?:\s*[([^]]+)])?(?:\s*[([^]]+)])?\.(\w+)$` -/
def tvPattern2 : Rx :=
  rcat [.grp 1 lazyDotPlus, rplus (.cls .space) true, li 'S', .grp 2 digits12,
    li 'E', .grp 3 digits13,
    .opt (rcat [rplus (.cls .space) true, .grp 4 lazyDotPlus]) true,
    .opt (rcat [wsStar, li '[', .grp 5 (rplus (.cls .nonRBracket) true), li ']']) true,
    .opt (rcat [wsStar, li '[', .grp 6 (rplus (.cls .nonRBracket) true), li ']']) true,
    li '.', .grp 7 (rplus (.cls .wordc) true), .eos]

/-- TV pattern 3: `^(.+?)\.S(\d{1,2})E(\d{1,3})(?:\.(.+?))?\.(\w+)$` -/
def tvPattern3 : Rx :=
  rcat [.grp 1 lazyDotPlus, li '.', li 'S', .grp 2 digits12, li 'E', .grp 3 digits13,
    .opt (rcat [li '.', .grp 4 lazyDotPlus]) true,
    li '.', .grp 5 (rplus (.cls .wordc) true), .eos]

/-- Movie pattern 1:
`^(.+?)\s*\((\d{4})\)(?:\s*[([^]]+)])?(?:\s*[([^]]+)])?(?:\s*\x7b([^\x7d]+)\x7d)?\.(\w+)$` -/
def moviePattern1 : Rx :=
  rcat [.grp 1 lazyDotPlus, wsStar, li '(', .grp 2 digits4, li ')',
    .opt (rcat [wsStar, li '[', .grp 3 (rplus (.cls .nonRBracket) true), li ']']) true,
    .opt (rcat [wsStar, li '[', .grp 4 (rplus (.cls .nonRBracket) true), li ']']) true,
    .opt (rcat [wsStar, li lbraceChar, .grp 5 (rplus (.cls .nonRBrace) true), li rbraceChar]) true,
    li '.', .grp 6 (rplus (.cls .wordc) true), .eos]

/-- Movie pattern 2: `^(.+?)\s*\((\d{4})\)(?:\s+(.+?))?\.(\w+)$` -/
def moviePattern2 : Rx :=
  rcat [.grp 1 lazyDotPlus, wsStar, li '(', .grp 2 digits4, li ')',
    .opt (rcat [rplus (.cls .space) true, .grp 3 lazyDotPlus]) true,
    li '.', .grp 4 (rplus (.cls .wordc) true), .eos]

/-- Movie pattern 3: `^(.+?)\.(\d{4})(?:\.(.+?))?\.(\w+)$` -/
def moviePattern3 : Rx :=
  rcat [.grp 1 lazyDotPlus, li '.', .grp 2 digits4,
    .opt (rcat [li '.', .grp 3 lazyDotPlus]) true,
    li '.', .grp 4 (rplus (.cls .wordc) true), .eos]

/-! ### Quality and release-group extraction
(`MediaScanner._extract_quality_and_group`, media_scanner.py 454-482) -/

/-- Model of `QUALITY_INDICATORS` (a Python set literal; only membership and token
lengths matter for the claims, so the literal order is kept). -/
def qualityIndicators : List (List Char) :=
  [("480p").toList, ("720p").toList, ("1080p").toList, ("1080i").toList,
   ("2160p").toList, ("4k").toList, ("uhd").toList,
   ("dvdrip").toList, ("brrip").toList, ("bluray").toList, ("hdtv").toList,
   ("webrip").toList, ("webdl").toList,
   ("remux").toList, ("proper").toList, ("repack").toList]

/-- Python substring test `needle in hay`. -/
def isSubstring (needle hay : List Char) : Bool :=
  match hay with
  | [] => needle.isEmpty
  | _ :: t => needle.isPrefixOf hay || isSubstring needle t

/-- The quality loop: longest indicator occurring in the lowercased
filename (first one wins on equal length). -/
def pickQuality (filename : List Char) : Option (List Char) :=
  let lower := filename.map Char.toLower
  qualityIndicators.foldl
    (fun q qi =>
      if isSubstring qi lower then
        match q with
        | none => some qi
        | some cur => if cur.length < qi.length then some qi else some cur
      else q)
    none

/-- Release-group pattern `\[([^\]]+)\]` (no IGNORECASE). -/
def grpBracketPat : Rx :=
  rcat [ls '[', .grp 1 (rplus (.cls .nonRBracket) true), ls ']']

/-- Release-group pattern `\x7b([^\x7d]+)\x7d`. -/
def grpBracePat : Rx :=
  rcat [ls lbraceChar, .grp 1 (rplus (.cls .nonRBrace) true), ls rbraceChar]

/-- Release-group pattern `-([A-Z0-9]+)(?:\.\w+)?$`. -/
def grpDashPat : Rx :=
  rcat [ls '-', .grp 1 (rplus (.cls .upperOrDigit) true),
    .opt (rcat [ls '.', rplus (.cls .wordc) true]) true, .eos]

/-- The group loop: for each pattern in turn, take the first search hit;
if its capture collides with a quality token move on to the next
pattern, otherwise keep it. -/
def findReleaseGroup : List Rx → List Char → Option (List Char)
  | [], _ => none
  | p :: rest, filename =>
    match reSearch p filename with
    | some caps =>
      match capGet caps 1 with
      | some g =>
        if (g.map Char.toLower) ∈ qualityIndicators then findReleaseGroup rest filename
        else some g
      | none => findReleaseGroup rest filename
    | none => findReleaseGroup rest filename

/-- Model of `MediaScanner._extract_quality_and_group`. -/
def extractQualityAndGroup (filename : List Char) :
    Option (List Char) × Option (List Char) :=
  (pickQuality filename, findReleaseGroup [grpBracketPat, grpBracePat, grpDashPat] filename)

/-! ### Scanned records and filename parsing
(media_scanner.py 14-61, 284-324, 533-563; file-stat fields omitted) -/

structure ScannedEpisode where
  file_path : List Char
  file_name : List Char
  season_number : Nat
  episode_number : Nat
  episode_title : Option (List Char) := none
  quality : Option (List Char) := none
  release_group : Option (List Char) := none
deriving DecidableEq, Repr

structure ScannedSeason where
  season_number : Nat
  episodes : List ScannedEpisode
  folder_path : Option (List Char) := none
deriving DecidableEq, Repr

structure ScannedTVShow where
  show_name : List Char
  show_year : Option Int
  folder_path : List Char
  seasons : List ScannedSeason
deriving DecidableEq, Repr

structure ScannedMovie where
  title : List Char
  year : Option Int
  file_path : List Char
  file_name : List Char
  quality : Option (List Char) := none
  release_group : Option (List Char) := none
  folder_path : Option (List Char) := none
deriving DecidableEq, Repr

/-- Model of `MediaScanner._parse_episode_file`: try the three strict TV patterns
in order; on a match, read season/episode/title from groups 1-4 and
quality/group from the independent extraction.  The `show_name` argument
is accepted and ignored, as in the source. -/
def parseEpisodeFile (filePath : List Char) (_showName : List Char) :
    Option ScannedEpisode :=
  let filename := pathName filePath
  match [tvPattern1, tvPattern2, tvPattern3].findSome? (fun p => reMatch p filename) with
  | none => none
  | some caps =>
    match capGet caps 2, capGet caps 3 with
    | some sg, some eg =>
      let qg := extractQualityAndGroup filename
      some { file_path := filePath, file_name := filename,
             season_number := digitsToNat sg, episode_number := digitsToNat eg,
             episode_title := (capGet caps 4).map dotsToSpaces,
             quality := qg.1, release_group := qg.2 }
    | _, _ => none

/-- Model of `MediaScanner._parse_movie_file`. -/
def parseMovieFile (filePath : List Char) : Option ScannedMovie :=
  let filename := pathName filePath
  match [moviePattern1, moviePattern2, moviePattern3].findSome? (fun p => reMatch p filename) with
  | none => none
  | some caps =>
    match capGet caps 1, capGet caps 2 with
    | some tg, some yg =>
      let qg := extractQualityAndGroup filename
      some { title := dotsToSpaces tg, year := some (Int.ofNat (digitsToNat yg)),
             file_path := filePath, file_name := filename,
             quality := qg.1, release_group := qg.2,
             folder_path := some (pathParent filePath) }
    | _, _ => none

/-! ### FileOrganizer (file_organizer.py) -/

structure RenameOperation where
  current_path : List Char
  suggested_path : List Char
  current_name : List Char
  suggested_name : List Char
  operation_type : String
  show_name : Option (List Char) := none
  season_number : Option Nat := none
  episode_number : Option Nat := none
  needs_confirmation : Bool := true
deriving DecidableEq, Repr

/-- Truthiness of an optional string field (`if episode.quality:`). -/
def optTruthy : Option (List Char) → Bool
  | none => false
  | some s => !s.isEmpty

/-- Model of `FileOrganizer._clean_show_name`: drop the characters
`< > : " / \ | ? *`, collapse whitespace runs, strip. -/
def cleanShowName (s : List Char) : List Char :=
  let dropped := s.filter (fun c =>
    !(c == '<' || c == '>' || c == ':' || c == '"' || c == '/' ||
      c == '\\' || c == '|' || c == '?' || c == '*'))
  joinSpaces (splitWs dropped)

/-- Model of `FileOrganizer._clean_movie_name` delegates to the show cleaner. -/
def cleanMovieName (s : List Char) : List Char := cleanShowName s

/-- Model of `FileOrganizer._generate_episode_filename`
(`Show - SxxEyy[ - Title][ [Quality]][ [Group]].ext`; the `show_year`
argument is accepted and unused, as in the source). -/
def generateEpisodeFilename (showName : List Char) (ep : ScannedEpisode)
    (_showYear : Option Int) : List Char :=
  let ext := pathSuffix ep.file_path
  let base := showName ++ (" - S").toList ++ pad2 ep.season_number ++ ['E'] ++ pad2 ep.episode_number
  let base := match ep.episode_title with
    | some t => if !t.isEmpty ∧ !(trimWs t).isEmpty then base ++ (" - ").toList ++ cleanShowName t else base
    | none => base
  let base := if optTruthy ep.quality then base ++ (" [").toList ++ ep.quality.getD [] ++ [']'] else base
  let base := if optTruthy ep.release_group then base ++ (" [").toList ++ ep.release_group.getD [] ++ [']'] else base
  base ++ ext

/-- Model of `FileOrganizer._generate_movie_filename`
(`Title[ (Year)][ [Quality]][ [Group]].ext`). -/
def generateMovieFilename (movie : ScannedMovie) : List Char :=
  let ext := pathSuffix movie.file_path
  let base := cleanMovieName movie.title
  let base := match movie.year with
    | some y => if y ≠ 0 then base ++ (" (").toList ++ intStr y ++ [')'] else base
    | none => base
  let base := if optTruthy movie.quality then base ++ (" [").toList ++ movie.quality.getD [] ++ [']'] else base
  let base := if optTruthy movie.release_group then base ++ (" [").toList ++ movie.release_group.getD [] ++ [']'] else base
  base ++ ext

/-- Canonical show-folder name: `Cleaned (Year)` when a year is known
(`0` is falsy in Python), else `Cleaned`. -/
def tvShowFolderName (sh : ScannedTVShow) : List Char :=
  let proper := cleanShowName sh.show_name
  match sh.show_year with
  | some y => if y ≠ 0 then proper ++ (" (").toList ++ intStr y ++ [')'] else proper
  | none => proper

/-- Canonical season-folder name `Season NN`. -/
def seasonFolderName (n : Nat) : List Char := ("Season ").toList ++ pad2 n

/-- Canonical target path of an episode file. -/
def tvEpisodeTargetPath (basePath : List Char) (sh : ScannedTVShow)
    (season : ScannedSeason) (ep : ScannedEpisode) : List Char :=
  posixJoin (posixJoin (posixJoin basePath (tvShowFolderName sh)) (seasonFolderName season.season_number))
    (generateEpisodeFilename (cleanShowName sh.show_name) ep sh.show_year)

/-- Model of `FileOrganizer.generate_tv_rename_operations`: per show, an optional
show-folder move (emitted when the folder name differs), then one
organize operation per episode whose current path differs from its
canonical target. -/
def generateTVRenameOperations (shows : List ScannedTVShow) (basePath : List Char) :
    List RenameOperation :=
  shows.flatMap (fun sh =>
    let showFolder := tvShowFolderName sh
    let showFolderPath := posixJoin basePath showFolder
    let folderOps :=
      if pathName sh.folder_path ≠ showFolder then
        [{ current_path := sh.folder_path, suggested_path := showFolderPath,
           current_name := pathName sh.folder_path, suggested_name := showFolder,
           operation_type := "move", show_name := some sh.show_name : RenameOperation }]
      else []
    folderOps ++ sh.seasons.flatMap (fun season =>
      season.episodes.filterMap (fun ep =>
        let suggestedName := generateEpisodeFilename (cleanShowName sh.show_name) ep sh.show_year
        let suggestedPath := posixJoin (posixJoin showFolderPath (seasonFolderName season.season_number)) suggestedName
        if ep.file_path ≠ suggestedPath then
          some { current_path := ep.file_path, suggested_path := suggestedPath,
                 current_name := pathName ep.file_path, suggested_name := suggestedName,
                 operation_type := "organize", show_name := some sh.show_name,
                 season_number := some season.season_number,
                 episode_number := some ep.episode_number }
        else none)))

/-- Canonical movie-folder name (`Cleaned (Year)` when the year is truthy). -/
def movieFolderName (movie : ScannedMovie) : List Char :=
  let base := cleanMovieName movie.title
  match movie.year with
  | some y => if y ≠ 0 then base ++ (" (").toList ++ intStr y ++ [')'] else base
  | none => base

/-- Canonical target path of a movie file. -/
def movieTargetPath (basePath : List Char) (movie : ScannedMovie) : List Char :=
  posixJoin (posixJoin basePath (movieFolderName movie)) (generateMovieFilename movie)

/-- Model of `FileOrganizer.generate_movie_rename_operations`. -/
def generateMovieRenameOperations (movies : List ScannedMovie) (basePath : List Char) :
    List RenameOperation :=
  movies.filterMap (fun movie =>
    let suggestedName := generateMovieFilename movie
    let suggestedPath := posixJoin (posixJoin basePath (movieFolderName movie)) suggestedName
    if movie.file_path ≠ suggestedPath then
      some { current_path := movie.file_path, suggested_path := suggestedPath,
             current_name := pathName movie.file_path, suggested_name := suggestedName,
             operation_type := "organize", show_name := some movie.title }
    else none)

/-! ### Execution and validation of rename operations
(file_organizer.py 205-305)

The filesystem collaborator is modelled explicitly: the set of existing
paths plus writability / directory-creation oracles for the permission
checks.  `shutil.move` succeeds in the model iff the source exists and
the destination parent is creatable and writable. -/

structure FileSystem where
  files : List (List Char)
  writable : List Char → Bool
  canCreateDir : List Char → Bool

/-- One `shutil.move`-or-`os.rename` step: `none` models the raised
exception. -/
def fsMove (fs : FileSystem) (src dst : List Char) : Option FileSystem :=
  if src ∈ fs.files ∧ fs.canCreateDir (pathParent dst) ∧ fs.writable (pathParent dst) then
    some { fs with files := dst :: fs.files.erase src }
  else none

structure ExecResults where
  total_operations : Nat
  successful : Nat
  failed : Nat
  errors : List (List Char)
  dry_run : Bool
deriving DecidableEq, Repr

/-- The loop body of `execute_rename_operations`: every filesystem touch
is guarded by `if not dry_run`, and each operation increments exactly
one of the success/failure counters; a failure never stops the loop. -/
def executeRenameOpsGo (dryRun : Bool) :
    List RenameOperation → ExecResults × FileSystem → ExecResults × FileSystem
  | [], acc => acc
  | op :: rest, (res, fs) =>
    if dryRun then
      executeRenameOpsGo dryRun rest ({ res with successful := res.successful + 1 }, fs)
    else
      match fsMove fs op.current_path op.suggested_path with
      | some fs2 =>
        executeRenameOpsGo dryRun rest ({ res with successful := res.successful + 1 }, fs2)
      | none =>
        executeRenameOpsGo dryRun rest
          ({ res with failed := res.failed + 1, errors := res.errors ++ [op.current_path] }, fs)

/-- Model of `FileOrganizer.execute_rename_operations`. -/
def executeRenameOperations (operations : List RenameOperation) (dryRun : Bool)
    (fs : FileSystem) : ExecResults × FileSystem :=
  executeRenameOpsGo dryRun operations
    ({ total_operations := operations.length, successful := 0, failed := 0,
       errors := [], dry_run := dryRun }, fs)

structure ValidationResults where
  valid : Nat
  invalid : Nat
  warnings : List (List Char)
  errors : List (List Char)
deriving DecidableEq, Repr

/-- Model of `FileOrganizer.validate_rename_operations`: source must exist, its
parent and the (created) destination parent must be writable; an
existing destination is only a warning. -/
def validateRenameOperations (operations : List RenameOperation) (fs : FileSystem) :
    ValidationResults :=
  operations.foldl
    (fun res op =>
      if op.current_path ∉ fs.files then
        { res with invalid := res.invalid + 1, errors := res.errors ++ [op.current_path] }
      else
        let res := if op.suggested_path ∈ fs.files then
            { res with warnings := res.warnings ++ [op.suggested_path] } else res
        if !fs.writable (pathParent op.current_path) then
          { res with invalid := res.invalid + 1, errors := res.errors ++ [pathParent op.current_path] }
        else if !fs.canCreateDir (pathParent op.suggested_path) then
          { res with invalid := res.invalid + 1, errors := res.errors ++ [pathParent op.suggested_path] }
        else if !fs.writable (pathParent op.suggested_path) then
          { res with invalid := res.invalid + 1, errors := res.errors ++ [pathParent op.suggested_path] }
        else { res with valid := res.valid + 1 })
    { valid := 0, invalid := 0, warnings := [], errors := [] }

/-! ### difflib.SequenceMatcher (no junk, autojunk inactive on the short
strings at issue)

`find_longest_match` returns the largest common block, ties resolved to
the block starting earliest in `a` and then earliest in `b`;
`get_matching_blocks` recurses on the pieces left and right of it.  Only
the total matched size is needed for `ratio`. -/

/-- Length of the common run of `a[i:]`/`b[j:]` below the bounds
`ahi`/`bhi` (fueled by `ahi - i`). -/
def runLenAux (a b : List Char) (ahi bhi : Nat) : Nat → Nat → Nat → Nat
  | 0, _, _ => 0
  | fuel + 1, i, j =>
    if i < ahi ∧ j < bhi ∧ a.getD i ' ' = b.getD j ' ' then
      runLenAux a b ahi bhi fuel (i + 1) (j + 1) + 1
    else 0

/-- Longest run starting at `(i, j)`. -/
def runLen (a b : List Char) (ahi bhi i j : Nat) : Nat :=
  runLenAux a b ahi bhi (ahi - i) i j

/-- All candidate blocks `(i, j, size)` in the window, in scan order. -/
def blockCands (a b : List Char) (alo ahi blo bhi : Nat) : List (Nat × Nat × Nat) :=
  (List.range' alo (ahi - alo)).flatMap (fun i =>
    (List.range' blo (bhi - blo)).map (fun j => (i, j, runLen a b ahi bhi i j)))

/-- Model of `find_longest_match`: first maximal block in scan order, which is the
one starting earliest in `a`, then earliest in `b`. -/
def bestBlock (a b : List Char) (alo ahi blo bhi : Nat) : Nat × Nat × Nat :=
  (blockCands a b alo ahi blo bhi).foldl
    (fun best c => if best.2.2 < c.2.2 then c else best) (alo, blo, 0)

/-- Total size of the matching blocks of `get_matching_blocks`
(fueled by the window width). -/
def matchedSizeAux (a b : List Char) : Nat → Nat → Nat → Nat → Nat → Nat
  | 0, _, _, _, _ => 0
  | fuel + 1, alo, ahi, blo, bhi =>
    let t := bestBlock a b alo ahi blo bhi
    if t.2.2 = 0 then 0
    else
      t.2.2 + matchedSizeAux a b fuel alo t.1 blo t.2.1 +
        matchedSizeAux a b fuel (t.1 + t.2.2) ahi (t.2.1 + t.2.2) bhi

/-- Total matched characters between `a` and `b`. -/
def seqMatchedSize (a b : List Char) : Nat :=
  matchedSizeAux a b a.length 0 a.length 0 b.length

/-- Model of `SequenceMatcher(None, a, b).ratio()`: `2*M/T`, or `1.0` for two
empty strings. -/
def seqRatio (a b : List Char) : ℚ :=
  if a.length + b.length = 0 then 1
  else 2 * (seqMatchedSize a b : ℚ) / ((a.length : ℚ) + (b.length : ℚ))

/-! ### MediaMatcher (media_matcher.py) -/

/-- Model of `tmdb_service.MediaResult` (tmdb_service.py 16-27), fields the
matcher reads; floats as `ℚ`. -/
structure MediaResult where
  id : Nat
  title : List Char
  media_type : String := "tv"
  year : Option Int := none
  rating : ℚ := 0
  vote_count : Nat := 0
  popularity : ℚ := 0
deriving DecidableEq, Repr

/-- Model of `MediaMatcher.IGNORE_WORDS` (a set of stop words). -/
def ignoreWords : List (List Char) :=
  [("the").toList, ("a").toList, ("an").toList, ("and").toList, ("or").toList,
   ("but").toList, ("in").toList, ("on").toList, ("at").toList, ("to").toList,
   ("for").toList, ("of").toList, ("with").toList, ("by").toList, ("from").toList,
   ("up").toList, ("about").toList, ("into").toList, ("through").toList,
   ("during").toList, ("before").toList, ("after").toList, ("above").toList,
   ("below").toList, ("between").toList, ("among").toList, ("under").toList,
   ("over").toList, ("beneath").toList, ("beside").toList, ("beyond").toList,
   ("across").toList, ("within").toList]

/-- Model of `MediaMatcher._normalize_title`: lowercase, punctuation to spaces,
whitespace collapsed. -/
def normalizeTitle (title : List Char) : List Char :=
  let t := title.map Char.toLower
  let t := t.map (fun c => if isWordChar c || isPySpace c then c else ' ')
  trimWs (joinSpaces (splitWs t))

/-- Model of `MediaMatcher._calculate_title_similarity`: exact normalized match
scores 1; otherwise the sequence ratio, blended 70/30 with the
stop-word-filtered Jaccard similarity when both word sets are
non-empty. -/
def calculateTitleSimilarity (title1 title2 : List Char) : ℚ :=
  let norm1 := normalizeTitle title1
  let norm2 := normalizeTitle title2
  if norm1 = norm2 then 1
  else
    let similarity := seqRatio norm1 norm2
    let words1 := (splitWs norm1).toFinset \ ignoreWords.toFinset
    let words2 := (splitWs norm2).toFinset \ ignoreWords.toFinset
    if words1.Nonempty ∧ words2.Nonempty then
      let wordUnion := (words1 ∪ words2).card
      let wordSimilarity : ℚ :=
        if 0 < wordUnion then ((words1 ∩ words2).card : ℚ) / (wordUnion : ℚ) else 0
      similarity * 0.7 + wordSimilarity * 0.3
    else similarity

/-- Python truthiness of an optional year (`0` is falsy). -/
def yearTruthy : Option Int → Bool
  | none => false
  | some y => y != 0

/-- Python `min(a, b)` on two rationals. -/
def pyMin (a b : ℚ) : ℚ := if a ≤ b then a else b

/-- Model of `MediaMatcher._calculate_tv_match_score`: title 0.6, year 0.2 (full)
or 0.1 (within 2, or missing scanned year), popularity and rating
bonuses capped at 0.1 each, total capped at 1. -/
def calculateTVMatchScore (sh : ScannedTVShow) (result : MediaResult) : ℚ :=
  let titleScore := calculateTitleSimilarity sh.show_name result.title
  let score := titleScore * 0.6
  let yearScore : ℚ :=
    if yearTruthy sh.show_year ∧ yearTruthy result.year then
      let yd := ((sh.show_year.getD 0) - (result.year.getD 0)).natAbs
      if yd = 0 then 0.2 else if yd ≤ 2 then 0.1 else 0
    else if sh.show_year = none then 0.1 else 0
  let popScore : ℚ := if 10 < result.popularity then pyMin 0.1 (result.popularity / 1000) else 0
  let ratingScore : ℚ := if 6.0 < result.rating then pyMin 0.1 ((result.rating - 6.0) / 4.0) else 0
  pyMin (score + yearScore + popScore + ratingScore) 1

/-- Model of `MediaMatcher._calculate_movie_match_score`: title 0.6, year 0.25 /
0.15 / 0.125, popularity capped at 0.08, rating at 0.07, total at 1. -/
def calculateMovieMatchScore (movie : ScannedMovie) (result : MediaResult) : ℚ :=
  let titleScore := calculateTitleSimilarity movie.title result.title
  let score := titleScore * 0.6
  let yearScore : ℚ :=
    if yearTruthy movie.year ∧ yearTruthy result.year then
      let yd := ((movie.year.getD 0) - (result.year.getD 0)).natAbs
      if yd = 0 then 0.25 else if yd = 1 then 0.15 else 0
    else if movie.year = none then 0.125 else 0
  let popScore : ℚ := if 10 < result.popularity then pyMin 0.08 (result.popularity / 1000) else 0
  let ratingScore : ℚ := if 6.0 < result.rating then pyMin 0.07 ((result.rating - 6.0) / 4.0) else 0
  pyMin (score + yearScore + popScore + ratingScore) 1

/-! ### Python stable sort

`scored_matches.sort(key=lambda x: x[1], reverse=True)` is a stable
descending sort, i.e. the unique ordering by key descending with the
original position as tie break; it is realised on position-tagged pairs
so the tie break is part of the ordering relation. -/

/-- Key-descending, position-ascending order on enumerated elements. -/
def pyDescLex {α : Type} (key : α → ℚ) (a b : Nat × α) : Prop :=
  key b.2 < key a.2 ∨ (key a.2 = key b.2 ∧ a.1 ≤ b.1)

instance {α : Type} (key : α → ℚ) : DecidableRel (pyDescLex key) := fun a b => by
  unfold pyDescLex; infer_instance

instance {α : Type} (key : α → ℚ) : IsTotal (Nat × α) (pyDescLex key) := by
  constructor
  intro a b
  rcases lt_trichotomy (key a.2) (key b.2) with h | h | h
  · exact Or.inr (Or.inl h)
  · rcases Nat.le_total a.1 b.1 with h2 | h2
    · exact Or.inl (Or.inr ⟨h, h2⟩)
    · exact Or.inr (Or.inr ⟨h.symm, h2⟩)
  · exact Or.inl (Or.inl h)

instance {α : Type} (key : α → ℚ) : IsTrans (Nat × α) (pyDescLex key) := by
  constructor
  intro a b c hab hbc
  rcases hab with h1 | ⟨e1, i1⟩
  · rcases hbc with h2 | ⟨e2, _⟩
    · exact Or.inl (h2.trans h1)
    · exact Or.inl (e2 ▸ h1)
  · rcases hbc with h2 | ⟨e2, i2⟩
    · exact Or.inl (by rw [e1]; exact h2)
    · exact Or.inr ⟨e1.trans e2, i1.trans i2⟩

/-- Python `list.sort(key=..., reverse=True)` (stable). -/
def pySortDesc {α : Type} (key : α → ℚ) (l : List α) : List α :=
  ((l.enum).insertionSort (pyDescLex key)).map Prod.snd

/-- Model of `MediaMatcher.AUTO_MATCH_THRESHOLD`. -/
def AUTO_MATCH_THRESHOLD : ℚ := 0.85

structure TVShowMatch where
  scanned_show : ScannedTVShow
  tmdb_matches : List MediaResult
  selected_match : Option MediaResult := none
  confidence_score : ℚ := 0
  match_status : String := "pending"
deriving DecidableEq, Repr

structure MovieMatch where
  scanned_movie : ScannedMovie
  tmdb_matches : List MediaResult
  selected_match : Option MediaResult := none
  confidence_score : ℚ := 0
  match_status : String := "pending"
deriving DecidableEq, Repr

/-- Scoring loop of `_match_single_tv_show`: score every catalog result
and keep those above 0.3, in catalog order. -/
def tvScored (sh : ScannedTVShow) (results : List MediaResult) :
    List (MediaResult × ℚ) :=
  (results.map (fun r => (r, calculateTVMatchScore sh r))).filter
    (fun p => decide ((0.3 : ℚ) < p.2))

/-- The surviving candidates sorted by score descending (stable). -/
def tvScoredSorted (sh : ScannedTVShow) (results : List MediaResult) :
    List (MediaResult × ℚ) :=
  pySortDesc Prod.snd (tvScored sh results)

/-- Scoring loop of `_match_single_movie`. -/
def movieScored (movie : ScannedMovie) (results : List MediaResult) :
    List (MediaResult × ℚ) :=
  (results.map (fun r => (r, calculateMovieMatchScore movie r))).filter
    (fun p => decide ((0.3 : ℚ) < p.2))

/-- The surviving movie candidates sorted by score descending (stable). -/
def movieScoredSorted (movie : ScannedMovie) (results : List MediaResult) :
    List (MediaResult × ℚ) :=
  pySortDesc Prod.snd (movieScored movie results)

/-- Model of `MediaMatcher._match_single_tv_show` after the catalog search: the
catalog results, the collection-membership lookup and the configured
threshold (`getattr(config, 'auto_match_threshold', 0.8)`) enter as
explicit collaborator parameters. -/
def matchSingleTVShow (sh : ScannedTVShow) (results : List MediaResult)
    (collectionHas : Nat → Bool) (autoMatchThreshold : ℚ) : TVShowMatch :=
  let sorted := tvScoredSorted sh results
  let top := (sorted.take 10).map Prod.fst
  match sorted with
  | [] =>
    { scanned_show := sh, tmdb_matches := top, confidence_score := 0,
      match_status := "skipped" }
  | (best, bestScore) :: _ =>
    if collectionHas best.id then
      { scanned_show := sh, tmdb_matches := top, selected_match := some best,
        confidence_score := bestScore, match_status := "already_in_collection" }
    else if autoMatchThreshold ≤ bestScore then
      { scanned_show := sh, tmdb_matches := top, selected_match := some best,
        confidence_score := bestScore, match_status := "matched" }
    else
      { scanned_show := sh, tmdb_matches := top, selected_match := none,
        confidence_score := bestScore, match_status := "needs_review" }

/-- Model of `MediaMatcher._match_single_movie` after the catalog search: no
collection lookup is performed, the fixed `AUTO_MATCH_THRESHOLD` is
used, and below it the status keeps its initial value `pending`. -/
def matchSingleMovie (movie : ScannedMovie) (results : List MediaResult) : MovieMatch :=
  let sorted := movieScoredSorted movie results
  let top := (sorted.take 10).map Prod.fst
  match sorted with
  | [] =>
    { scanned_movie := movie, tmdb_matches := top, confidence_score := 0,
      match_status := "pending" }
  | (best, bestScore) :: _ =>
    if AUTO_MATCH_THRESHOLD ≤ bestScore then
      { scanned_movie := movie, tmdb_matches := top, selected_match := some best,
        confidence_score := bestScore, match_status := "matched" }
    else
      { scanned_movie := movie, tmdb_matches := top, selected_match := none,
        confidence_score := bestScore, match_status := "pending" }

/-! ### Import sessions (import_media.py)

The module-level dict `import_sessions` is an association list; the
scanned item and match lists, which no session-level claim reads, are
omitted from the session record. -/

structure SessionData where
  media_type : String
  library_paths : List String
  status : String
  progress : ℚ
  message : String
  scanned_count : Nat := 0
  matched_count : Nat := 0
deriving DecidableEq, Repr

abbrev Registry := List (String × SessionData)

/-- Model of `import_sessions[sid]` lookup. -/
def lookupSession (reg : Registry) (sid : String) : Option SessionData :=
  (reg.find? (fun p => p.1 == sid)).map Prod.snd

/-- Model of `import_sessions[sid] = v`: replace in place, or append a new key. -/
def setSession (reg : Registry) (sid : String) (v : SessionData) : Registry :=
  if (reg.find? (fun p => p.1 == sid)).isSome then
    reg.map (fun p => if p.1 == sid then (sid, v) else p)
  else reg ++ [(sid, v)]

/-- Model of the session id format string: the literal text import_,
the media type, an underscore, and the whole-second timestamp
(import_media.py line 93). -/
def sessionIdFor (mediaType : String) (unixSeconds : Nat) : String :=
  "import_" ++ mediaType ++ "_" ++ Nat.repr unixSeconds

/-- Model of `start_import_session` (import_media.py 54-119): validate the kind
and the requested roots against the configured roots, then create the
session under the timestamp-derived id (a plain dict assignment, which
silently overwrites an existing session with the same id). -/
def startImportSession (configuredPaths : List String) (reg : Registry)
    (mediaType : String) (libraryPaths : List String) (nowSeconds : Nat) :
    Except String (String × Registry) :=
  if mediaType ≠ "tv" ∧ mediaType ≠ "movies" then
    .error ("Media type must be tv or movies")
  else if libraryPaths.isEmpty then
    .error ("At least one library path is required")
  else if libraryPaths.any (fun p => !(configuredPaths.contains p)) then
    .error ("Path is not configured as a library path")
  else
    let sid := sessionIdFor mediaType nowSeconds
    .ok (sid, setSession reg sid
      { media_type := mediaType, library_paths := libraryPaths,
        status := "scanning", progress := 0, message := "Starting scan...",
        scanned_count := 0, matched_count := 0 })

/-- Model of `execute_import` endpoint (import_media.py 214-237): 404 when the
session is unknown, 400 unless the status is `preview`, otherwise the
session moves to `importing`. -/
def executeImport (reg : Registry) (sid : String) : Except String Registry :=
  match lookupSession reg sid with
  | none => .error ("Session not found")
  | some s =>
    if s.status ≠ "preview" then .error ("Session is not ready for import")
    else .ok (setSession reg sid
      { s with status := "importing", message := "Importing matched shows...", progress := 0 })

/-- The endpoint as the caller sees it: an HTTP error leaves the
registry untouched. -/
def runExecuteEndpoint (reg : Registry) (sid : String) : Registry × Option String :=
  match executeImport reg sid with
  | .ok reg2 => (reg2, none)
  | .error e => (reg, some e)

/-- Every session-status assignment in import_media.py, as a transition
relation on status strings: the scan/match background task
(`scan_and_match_media`, 320-379) advances `scanning` to `matching` to
`preview` and maps an exception during either phase to `error`; the
execute endpoint moves `preview` to `importing`; the import background
task (`execute_import_task`, 381-482) ends in `complete` or `error`. -/
inductive SessionStep : String → String → Prop
  | scanOk : SessionStep ("scanning") ("matching")
  | matchOk : SessionStep ("matching") ("preview")
  | scanErr : SessionStep ("scanning") ("error")
  | matchErr : SessionStep ("matching") ("error")
  | execBegin : SessionStep ("preview") ("importing")
  | importOk : SessionStep ("importing") ("complete")
  | importErr : SessionStep ("importing") ("error")

/-- The transitions the specification allows: the forward chain plus
`error` from any non-terminal state. -/
def specAllowedStep (s t : String) : Prop :=
  (s = "scanning" ∧ t = "matching") ∨ (s = "matching" ∧ t = "preview") ∨
  (s = "preview" ∧ t = "importing") ∨ (s = "importing" ∧ t = "complete") ∨
  (s ≠ "complete" ∧ s ≠ "error" ∧ t = "error")

/-! ### Concrete fixtures used by counterexamples and witnesses -/

/-- The Inception movie file of the end-to-end scenario, as the scanner
parses it (quality is `bluray`: the longest quality token present, which
beats `1080p`). -/
def inceptionScanned : ScannedMovie :=
  { title := ("Inception").toList, year := some 2010,
    file_path := ("/movies/Inception.2010.1080p.BluRay-XYZ.mkv").toList,
    file_name := ("Inception.2010.1080p.BluRay-XYZ.mkv").toList,
    quality := some (("bluray").toList), release_group := some (("XYZ").toList),
    folder_path := some (("/movies").toList) }

/-- The single rename operation the planner produces for it. -/
def inceptionOp : RenameOperation :=
  { current_path := ("/movies/Inception.2010.1080p.BluRay-XYZ.mkv").toList,
    suggested_path := ("/movies/Inception (2010)/Inception (2010) [bluray] [XYZ].mkv").toList,
    current_name := ("Inception.2010.1080p.BluRay-XYZ.mkv").toList,
    suggested_name := ("Inception (2010) [bluray] [XYZ].mkv").toList,
    operation_type := "organize", show_name := some (("Inception").toList) }

/-- What the scanner reads back from the planner output path: the
release group is gone, because the extractor only inspects the first
bracketed tag and `[bluray]` is a quality token. -/
def inceptionRescanned : ScannedMovie :=
  { title := ("Inception").toList, year := some 2010,
    file_path := ("/movies/Inception (2010)/Inception (2010) [bluray] [XYZ].mkv").toList,
    file_name := ("Inception (2010) [bluray] [XYZ].mkv").toList,
    quality := some (("bluray").toList), release_group := none,
    folder_path := some (("/movies/Inception (2010)").toList) }

/-- A movie that already sits at its canonical location. -/
def canonicalMovie : ScannedMovie :=
  { title := ("A").toList, year := none,
    file_path := ("/movies/A/A.mkv").toList, file_name := ("A.mkv").toList,
    quality := none, release_group := none, folder_path := some (("/movies/A").toList) }

/-- A minimal scanned show for matcher fixtures. -/
def showA : ScannedTVShow :=
  { show_name := ("A").toList, show_year := none, folder_path := ("/tv/A").toList, seasons := [] }

/-- Catalog candidate with an exact title match and no other signal:
TV score 0.7. -/
def resA : MediaResult := { id := 7, title := ("A").toList }

/-- A second candidate with the identical score. -/
def resA2 : MediaResult := { id := 8, title := ("A").toList }

/-- A minimal scanned movie for matcher fixtures. -/
def movieA : ScannedMovie :=
  { title := ("A").toList, year := none,
    file_path := ("/movies/A.mkv").toList, file_name := ("A.mkv").toList }

/-- Movie candidate scoring 0.875 (above the 0.85 movie threshold). -/
def resM : MediaResult :=
  { id := 9, title := ("A").toList, media_type := "movie", rating := 9, popularity := 100 }

/-- Movie candidate scoring 0.725 (below the 0.85 movie threshold). -/
def resM2 : MediaResult := { id := 10, title := ("A").toList, media_type := "movie" }

/-- A collection store that contains every catalog id. -/
def collAll : Nat → Bool := fun _ => true

/-- A collection store that contains no catalog id. -/
def collNone : Nat → Bool := fun _ => false

/-! ### Claim C5 -/

/-- C5 counterexample: for the file
`Show - S01E01 - Title [1080p][GROUP].mkv` the parser indeed returns
season 1, episode 1, title `Title` and quality `1080p`, but the release
group is `None`, not `GROUP`: the group loop inspects only the first
bracketed tag, `[1080p]`, rejects it as a quality token and moves on to
the brace and trailing-dash patterns, which find nothing. -/
theorem C5_counterexample :
    parseEpisodeFile (("Show - S01E01 - Title [1080p][GROUP].mkv").toList) (("Show").toList) =
      some { file_path := ("Show - S01E01 - Title [1080p][GROUP].mkv").toList,
             file_name := ("Show - S01E01 - Title [1080p][GROUP].mkv").toList,
             season_number := 1, episode_number := 1,
             episode_title := some (("Title").toList),
             quality := some (("1080p").toList), release_group := none } ∧
    (none : Option (List Char)) ≠ some (("GROUP").toList) := by
  constructor
  · decide
  · decide

/-- C5 (amended): the parser returns season 1, episode 1, episode title
`Title` and quality `1080p` for the hyphen-delimited file, but the
release group is `None`, because only the first bracketed candidate is
examined and it collides with a quality token; when the first bracketed
tag is not a quality token, as in `Show - S01E01 - Title [GROUP].mkv`,
the group `GROUP` is returned. -/
theorem C5_theorem :
    parseEpisodeFile (("Show - S01E01 - Title [1080p][GROUP].mkv").toList) (("Show").toList) =
      some { file_path := ("Show - S01E01 - Title [1080p][GROUP].mkv").toList,
             file_name := ("Show - S01E01 - Title [1080p][GROUP].mkv").toList,
             season_number := 1, episode_number := 1,
             episode_title := some (("Title").toList),
             quality := some (("1080p").toList), release_group := none } ∧
    parseEpisodeFile (("Show - S01E01 - Title [GROUP].mkv").toList) (("Show").toList) =
      some { file_path := ("Show - S01E01 - Title [GROUP].mkv").toList,
             file_name := ("Show - S01E01 - Title [GROUP].mkv").toList,
             season_number := 1, episode_number := 1,
             episode_title := some (("Title").toList),
             quality := none, release_group := some (("GROUP").toList) } := by
  constructor
  · decide
  · decide

/-! ### Claim C6 -/

/-- C6 counterexample: planning for
`/movies/Inception.2010.1080p.BluRay-XYZ.mkv` produces exactly one
operation, but its target is
`/movies/Inception (2010)/Inception (2010) [bluray] [XYZ].mkv`, not the
claimed `/movies/Inception (2010)/Inception (2010) [1080p][XYZ].mkv`:
the scanner picks the longest quality token (`bluray`, lowercased, beats
`1080p`), and the organizer writes a space between the quality and group
brackets. -/
theorem C6_counterexample :
    (parseMovieFile (("/movies/Inception.2010.1080p.BluRay-XYZ.mkv").toList)).map
        (fun m => generateMovieRenameOperations [m] (("/movies").toList)) =
      some [inceptionOp] ∧
    inceptionOp.suggested_path ≠
      ("/movies/Inception (2010)/Inception (2010) [1080p][XYZ].mkv").toList := by
  constructor
  · decide
  · decide

/-- C6 (amended): scanning the movie file and planning against base
`/movies` produces exactly one operation, whose target path is
`/movies/Inception (2010)/Inception (2010) [bluray] [XYZ].mkv`. -/
theorem C6_theorem :
    parseMovieFile (("/movies/Inception.2010.1080p.BluRay-XYZ.mkv").toList) =
      some inceptionScanned ∧
    generateMovieRenameOperations [inceptionScanned] (("/movies").toList) = [inceptionOp] := by
  constructor
  · decide
  · decide

/-! ### Claim C4 -/

/-- A show already in canonical form under base `/tv`. -/
def canonicalEp : ScannedEpisode :=
  { file_path := ("/tv/B/Season 01/B - S01E01.mkv").toList,
    file_name := ("B - S01E01.mkv").toList, season_number := 1, episode_number := 1 }

def canonicalShow : ScannedTVShow :=
  { show_name := ("B").toList, show_year := none, folder_path := ("/tv/B").toList,
    seasons := [{ season_number := 1, episodes := [canonicalEp],
                  folder_path := some (("/tv/B/Season 01").toList) }] }

/-- A show whose folder is not canonical, to exercise the folder move. -/
def messyShow : ScannedTVShow :=
  { show_name := ("B").toList, show_year := none, folder_path := ("/tv/b-old").toList,
    seasons := [] }

def messyShowOp : RenameOperation :=
  { current_path := ("/tv/b-old").toList, suggested_path := ("/tv/B").toList,
    current_name := ("b-old").toList, suggested_name := ("B").toList,
    operation_type := "move", show_name := some (("B").toList) }

/-- Characters of a word produced by `splitWsAux` come from the input or
the accumulator. -/
theorem mem_splitWsAux {c : Char} :
    ∀ (s acc : List Char), ∀ w ∈ splitWsAux s acc, c ∈ w → c ∈ s ∨ c ∈ acc := by
  intro s
  induction s with
  | nil =>
    intro acc w hw hc
    unfold splitWsAux at hw
    split at hw
    · simp at hw
    · simp at hw
      subst hw
      exact Or.inr (List.mem_reverse.mp hc)
  | cons a t ih =>
    intro acc w hw hc
    unfold splitWsAux at hw
    split at hw
    · split at hw
      · rcases ih [] w hw hc with h | h
        · exact Or.inl (List.mem_cons_of_mem a h)
        · simp at h
      · rcases List.mem_cons.mp hw with h | h
        · subst h
          exact Or.inr (List.mem_reverse.mp hc)
        · rcases ih [] w h hc with h2 | h2
          · exact Or.inl (List.mem_cons_of_mem a h2)
          · simp at h2
    · rcases ih (a :: acc) w hw hc with h | h
      · exact Or.inl (List.mem_cons_of_mem a h)
      · rcases List.mem_cons.mp h with h2 | h2
        · exact Or.inl (h2 ▸ List.mem_cons_self a t)
        · exact Or.inr h2

/-- Characters of a `splitWs` word come from the input string. -/
theorem mem_splitWs {c : Char} {s w : List Char} (hw : w ∈ splitWs s) (hc : c ∈ w) :
    c ∈ s := by
  rcases mem_splitWsAux s [] w hw hc with h | h
  · exact h
  · simp at h

/-- A piece of an interspersed list is the separator or one of the
original pieces. -/
theorem mem_intersperse_space {l : List Char} :
    ∀ (ws : List (List Char)), l ∈ List.intersperse [' '] ws → l = [' '] ∨ l ∈ ws := by
  intro ws
  induction ws with
  | nil => intro h; simp [List.intersperse] at h
  | cons w rest ih =>
    rcases rest with _ | ⟨w2, r2⟩
    · intro h
      simp [List.intersperse] at h
      exact Or.inr (by simp [h])
    · intro h
      rw [show List.intersperse [' '] (w :: w2 :: r2) =
          w :: [' '] :: List.intersperse [' '] (w2 :: r2) from rfl] at h
      rcases List.mem_cons.mp h with h1 | h1
      · exact Or.inr (h1 ▸ List.mem_cons_self _ _)
      · rcases List.mem_cons.mp h1 with h2 | h2
        · exact Or.inl h2
        · rcases ih h2 with h3 | h3
          · exact Or.inl h3
          · exact Or.inr (List.mem_cons_of_mem _ h3)

/-- A character of a space-join is a space or comes from one of the
pieces. -/
theorem mem_joinSpaces {c : Char} {ws : List (List Char)} (h : c ∈ joinSpaces ws) :
    c = ' ' ∨ ∃ w ∈ ws, c ∈ w := by
  unfold joinSpaces List.intercalate at h
  rcases List.mem_flatten.mp h with ⟨l, hl, hc⟩
  rcases mem_intersperse_space ws hl with h1 | h1
  · subst h1
    simp at hc
    exact Or.inl hc
  · exact Or.inr ⟨l, h1, hc⟩

/-- The slash is removed by the name cleaner. -/
theorem slash_not_mem_cleanShowName (s : List Char) : '/' ∉ cleanShowName s := by
  intro h
  unfold cleanShowName at h
  rcases mem_joinSpaces h with h2 | ⟨w, hw, hc⟩
  · exact absurd h2 (by decide)
  · have h3 := mem_splitWs hw hc
    have h4 := List.of_mem_filter h3
    simp at h4

/-- Lemma: `Char.ofNat` round-trips on valid code points. -/
theorem char_toNat_ofNat_valid {n : Nat} (h : n.isValidChar) : (Char.ofNat n).toNat = n := by
  unfold Char.ofNat
  rw [dif_pos h]
  rfl

/-- Digits produced by `natDigitsAux` are decimal digit characters. -/
theorem natDigitsAux_mem :
    ∀ (fuel n : Nat), ∀ c ∈ natDigitsAux fuel n, 48 ≤ c.toNat ∧ c.toNat ≤ 57 := by
  intro fuel
  induction fuel with
  | zero => intro n c hc; simp [natDigitsAux] at hc
  | succ f ih =>
    intro n c hc
    unfold natDigitsAux at hc
    split at hc
    · rename_i hn
      simp at hc
      subst hc
      have hv : (48 + n).isValidChar := Or.inl (by omega)
      rw [char_toNat_ofNat_valid hv]
      omega
    · rcases List.mem_append.mp hc with h | h
      · exact ih _ c h
      · simp at h
        subst h
        have hmod : n % 10 < 10 := Nat.mod_lt n (by omega)
        have hv : (48 + n % 10).isValidChar := Or.inl (by omega)
        rw [char_toNat_ofNat_valid hv]
        omega

/-- The slash is not a decimal digit character. -/
theorem slash_not_mem_natStr (n : Nat) : '/' ∉ natStr n := by
  intro h
  have h2 := natDigitsAux_mem (n + 1) n '/' h
  simp at h2

/-- The canonical show-folder name never contains a slash. -/
theorem slash_not_mem_tvShowFolderName (sh : ScannedTVShow) :
    '/' ∉ tvShowFolderName sh := by
  unfold tvShowFolderName
  rcases h : sh.show_year with _ | y
  · exact slash_not_mem_cleanShowName sh.show_name
  · by_cases hy : y ≠ 0
    · simp only [if_pos hy]
      intro hm
      rcases List.mem_append.mp hm with h2 | h2
      · rcases List.mem_append.mp h2 with h3 | h3
        · rcases List.mem_append.mp h3 with h4 | h4
          · exact slash_not_mem_cleanShowName sh.show_name h4
          · exact absurd h4 (by decide)
        · unfold intStr at h3
          split at h3
          · rcases List.mem_cons.mp h3 with h4 | h4
            · exact absurd h4 (by decide)
            · exact slash_not_mem_natStr _ h4
          · exact slash_not_mem_natStr _ h3
      · exact absurd h2 (by decide)
    · simp only [if_neg hy]
      exact slash_not_mem_cleanShowName sh.show_name

/-- Lemma: `takeWhile` runs through a block that satisfies the predicate. -/
theorem takeWhile_all_append {p : Char → Bool} :
    ∀ (l1 l2 : List Char), (∀ x ∈ l1, p x = true) →
      (l1 ++ l2).takeWhile p = l1 ++ l2.takeWhile p := by
  intro l1
  induction l1 with
  | nil => intro l2 _; simp
  | cons a t ih =>
    intro l2 hall
    have ha : p a = true := hall a (List.mem_cons_self _ _)
    simp [List.takeWhile_cons, ha]
    exact ih l2 (fun x hx => hall x (List.mem_cons_of_mem a hx))

/-- The final component of a join is the joined name, provided the name
has no separator in it. -/
theorem pathName_posixJoin (a b : List Char) (hb : '/' ∉ b) :
    pathName (posixJoin a b) = b := by
  unfold pathName posixJoin
  have hrev : ∀ x ∈ b.reverse, (x != '/') = true := by
    intro x hx
    have hxb : x ∈ b := List.mem_reverse.mp hx
    have hne : x ≠ '/' := fun he => hb (he ▸ hxb)
    simpa using hne
  have h1 : (a ++ '/' :: b).reverse = b.reverse ++ '/' :: a.reverse := by
    simp
  rw [h1, takeWhile_all_append b.reverse ('/' :: a.reverse) hrev]
  simp [List.takeWhile_cons]

/-- C4 counterexample: the planner output for the Inception movie names
the target `/movies/Inception (2010)/Inception (2010) [bluray] [XYZ].mkv`;
re-scanning that very path loses the release group (the first bracketed
tag `[bluray]` is a quality token, so the group loop gives up), and
planning over the re-scanned tree is NOT empty: it renames the file
again, to `Inception (2010) [bluray].mkv`. -/
theorem C4_counterexample :
    generateMovieRenameOperations [inceptionScanned] (("/movies").toList) = [inceptionOp] ∧
    parseMovieFile inceptionOp.suggested_path = some inceptionRescanned ∧
    generateMovieRenameOperations [inceptionRescanned] (("/movies").toList) ≠ [] := by
  refine ⟨by decide, by decide, by decide⟩

/-- C4 (amended): planning is idempotent at the metadata level: an
operation is emitted only when the current path differs byte-for-byte
from the computed target path, and a scanned tree in which every show
folder and file already carries its canonical name and path produces an
empty plan.  (Re-scanning the tree the planner output describes is not
covered: re-parsing the generated names can lose the release group, and
then a second plan is non-empty, as the counterexample shows.) -/
theorem C4_theorem :
    (∀ (shows : List ScannedTVShow) (base : List Char),
      ∀ op ∈ generateTVRenameOperations shows base,
        op.current_path ≠ op.suggested_path) ∧
    (∀ (movies : List ScannedMovie) (base : List Char),
      ∀ op ∈ generateMovieRenameOperations movies base,
        op.current_path ≠ op.suggested_path) ∧
    (∀ (shows : List ScannedTVShow) (base : List Char),
      (∀ sh ∈ shows, pathName sh.folder_path = tvShowFolderName sh ∧
        ∀ season ∈ sh.seasons, ∀ ep ∈ season.episodes,
          ep.file_path = tvEpisodeTargetPath base sh season ep) →
      generateTVRenameOperations shows base = []) ∧
    (∀ (movies : List ScannedMovie) (base : List Char),
      (∀ m ∈ movies, m.file_path = movieTargetPath base m) →
      generateMovieRenameOperations movies base = []) := by
  refine ⟨?_, ?_, ?_, ?_⟩
  · intro shows base op hop
    unfold generateTVRenameOperations at hop
    rw [List.mem_flatMap] at hop
    obtain ⟨sh, _, hop⟩ := hop
    rcases List.mem_append.mp hop with hfold | heps
    · by_cases hname : pathName sh.folder_path ≠ tvShowFolderName sh
      · rw [if_pos hname] at hfold
        simp at hfold
        subst hfold
        intro heq
        simp only at heq
        apply hname
        rw [heq, pathName_posixJoin base _ (slash_not_mem_tvShowFolderName sh)]
      · rw [if_neg hname] at hfold
        simp at hfold
    · rw [List.mem_flatMap] at heps
      obtain ⟨season, _, heps⟩ := heps
      rw [List.mem_filterMap] at heps
      obtain ⟨ep, _, hep⟩ := heps
      by_cases hpath : ep.file_path ≠
          posixJoin (posixJoin (posixJoin base (tvShowFolderName sh))
            (seasonFolderName season.season_number))
            (generateEpisodeFilename (cleanShowName sh.show_name) ep sh.show_year)
      · rw [if_pos hpath] at hep
        injection hep with hep
        subst hep
        exact hpath
      · rw [if_neg hpath] at hep
        exact absurd hep (by simp)
  · intro movies base op hop
    unfold generateMovieRenameOperations at hop
    rw [List.mem_filterMap] at hop
    obtain ⟨m, _, hm⟩ := hop
    by_cases hpath : m.file_path ≠
        posixJoin (posixJoin base (movieFolderName m)) (generateMovieFilename m)
    · rw [if_pos hpath] at hm
      injection hm with hm
      subst hm
      exact hpath
    · rw [if_neg hpath] at hm
      exact absurd hm (by simp)
  · intro shows base hcanon
    unfold generateTVRenameOperations
    rw [List.flatMap_eq_nil_iff]
    intro sh hsh
    obtain ⟨hfold, heps⟩ := hcanon sh hsh
    dsimp only
    rw [if_neg (by simp [hfold]), List.nil_append, List.flatMap_eq_nil_iff]
    intro season hseason
    rw [List.filterMap_eq_nil_iff]
    intro ep hep
    have h2 := heps season hseason ep hep
    unfold tvEpisodeTargetPath at h2
    rw [if_neg (by simp only [ne_eq, not_not]; exact h2)]
  · intro movies base hcanon
    unfold generateMovieRenameOperations
    rw [List.filterMap_eq_nil_iff]
    intro m hm
    have h2 := hcanon m hm
    unfold movieTargetPath at h2
    rw [if_neg (by simp only [ne_eq, not_not]; exact h2)]

/-- C4 witness: the amended theorem applied at concrete inputs: the
Inception operation really changes the path, the messy show-folder move
really changes the path, and the two canonical fixtures plan to empty
lists. -/
theorem C4_witness :
    messyShowOp.current_path ≠ messyShowOp.suggested_path ∧
    inceptionOp.current_path ≠ inceptionOp.suggested_path ∧
    generateTVRenameOperations [canonicalShow] (("/tv").toList) = [] ∧
    generateMovieRenameOperations [canonicalMovie] (("/movies").toList) = [] := by
  have h := C4_theorem
  refine ⟨h.1 [messyShow] (("/tv").toList) messyShowOp (by decide),
          h.2.1 [inceptionScanned] (("/movies").toList) inceptionOp (by decide),
          h.2.2.1 [canonicalShow] (("/tv").toList) (by decide),
          h.2.2.2 [canonicalMovie] (("/movies").toList) (by decide)⟩

/-! ### Properties of the stable descending sort -/

/-- The sort permutes its input. -/
theorem pySortDesc_perm {α : Type} (key : α → ℚ) (l : List α) :
    List.Perm (pySortDesc key l) l := by
  unfold pySortDesc
  have h := (List.perm_insertionSort (pyDescLex key) l.enum).map Prod.snd
  rwa [List.enum_map_snd] at h

/-- The sorted output is non-increasing in the key. -/
theorem pySortDesc_sorted {α : Type} (key : α → ℚ) (l : List α) :
    (pySortDesc key l).Pairwise (fun a b => key b ≤ key a) := by
  unfold pySortDesc
  have hs := List.sorted_insertionSort (pyDescLex key) l.enum
  rw [List.pairwise_map]
  refine hs.imp ?_
  intro a b h
  rcases h with h | ⟨h, _⟩
  · exact le_of_lt h
  · exact le_of_eq h.symm

/-- Stability: elements with any fixed key keep their input order, so
filtering the output at one key value recovers the input filtered at
that value. -/
theorem pySortDesc_stable {α : Type} [DecidableEq α] (key : α → ℚ) (l : List α) (q : ℚ) :
    (pySortDesc key l).filter (fun x => decide (key x = q)) =
      l.filter (fun x => decide (key x = q)) := by
  unfold pySortDesc
  have hfm : ∀ (m : List (ℕ × α)),
      (m.map Prod.snd).filter (fun x => decide (key x = q)) =
        (m.filter (fun p => decide (key p.2 = q))).map Prod.snd := by
    intro m
    induction m with
    | nil => rfl
    | cons p t ih =>
      by_cases hp : key p.2 = q
      · simp [List.filter_cons, hp, ih]
      · simp [List.filter_cons, hp, ih]
  rw [hfm]
  have hperm : List.Perm ((l.enum.insertionSort (pyDescLex key)).filter
      (fun p => decide (key p.2 = q))) (l.enum.filter (fun p => decide (key p.2 = q))) :=
    (List.perm_insertionSort (pyDescLex key) l.enum).filter _
  have hfstlt : ∀ (m : List (ℕ × α)), ((m.map Prod.fst).Nodup) →
      m.Pairwise (fun a b : ℕ × α => a.1 ≤ b.1) →
      m.Pairwise (fun a b : ℕ × α => a.1 < b.1) := by
    intro m hnd hle
    have hne : m.Pairwise (fun a b : ℕ × α => a.1 ≠ b.1) := List.pairwise_map.mp hnd
    exact (hle.and hne).imp (fun h => lt_of_le_of_ne h.1 h.2)
  have hnodupSorted : ((l.enum.insertionSort (pyDescLex key)).map Prod.fst).Nodup := by
    have h2 := ((List.perm_insertionSort (pyDescLex key) l.enum).map Prod.fst).nodup_iff
    exact h2.mpr (List.nodup_enum_map_fst l)
  have hsorted1 : ((l.enum.insertionSort (pyDescLex key)).filter
      (fun p => decide (key p.2 = q))).Pairwise (fun a b : ℕ × α => a.1 < b.1) := by
    apply hfstlt
    · exact ((List.filter_sublist _).map Prod.fst).nodup hnodupSorted
    · have hs := List.sorted_insertionSort (pyDescLex key) l.enum
      have hsub : ((l.enum.insertionSort (pyDescLex key)).filter
          (fun p => decide (key p.2 = q))).Pairwise (pyDescLex key) :=
        hs.sublist (List.filter_sublist _)
      have hmem : ∀ p ∈ (l.enum.insertionSort (pyDescLex key)).filter
          (fun p => decide (key p.2 = q)), key p.2 = q := by
        intro p hp
        have := List.of_mem_filter hp
        simpa using this
      refine List.Pairwise.imp_of_mem ?_ hsub
      intro a b ha hb hr
      rcases hr with h | ⟨_, h⟩
      · rw [hmem a ha, hmem b hb] at h
        exact absurd h (lt_irrefl q)
      · exact h
  have hsorted2 : ((l.enum.filter (fun p => decide (key p.2 = q)))).Pairwise
      (fun a b : ℕ × α => a.1 < b.1) := by
    have henum : l.enum.Pairwise (fun a b : ℕ × α => a.1 < b.1) := by
      have hr : (l.enum.map Prod.fst).Pairwise (fun a b : ℕ => a < b) := by
        rw [List.enum_map_fst]
        exact List.pairwise_lt_range l.length
      rw [List.pairwise_map] at hr
      exact hr
    exact henum.sublist (List.filter_sublist _)
  have : ((l.enum.insertionSort (pyDescLex key)).filter (fun p => decide (key p.2 = q))) =
      (l.enum.filter (fun p => decide (key p.2 = q))) := by
    have hanti : IsAntisymm (ℕ × α) (fun a b : ℕ × α => a.1 < b.1) := by
      constructor
      intro a b h1 h2
      exact absurd (Nat.lt_trans h1 h2) (Nat.lt_irrefl _)
    exact List.eq_of_perm_of_sorted hperm hsorted1 hsorted2
  rw [this, ← hfm l.enum, List.enum_map_snd]

/-- The candidate list of a TV match is always the top ten of the
sorted surviving candidates, whatever the status branch. -/
theorem matchSingleTVShow_tmdb_matches (sh : ScannedTVShow) (results : List MediaResult)
    (ch : Nat → Bool) (th : ℚ) :
    (matchSingleTVShow sh results ch th).tmdb_matches =
      ((tvScoredSorted sh results).take 10).map Prod.fst := by
  rcases h : tvScoredSorted sh results with _ | ⟨⟨b1, b2⟩, rest⟩
  · simp only [matchSingleTVShow, h]
  · simp only [matchSingleTVShow, h]
    split
    · rfl
    · split <;> rfl

/-- The candidate list of a movie match is always the top ten of the
sorted surviving candidates. -/
theorem matchSingleMovie_tmdb_matches (movie : ScannedMovie) (results : List MediaResult) :
    (matchSingleMovie movie results).tmdb_matches =
      ((movieScoredSorted movie results).take 10).map Prod.fst := by
  rcases h : movieScoredSorted movie results with _ | ⟨⟨b1, b2⟩, rest⟩
  · simp only [matchSingleMovie, h]
  · simp only [matchSingleMovie, h]
    split <;> rfl

/-- Members of the surviving-candidate list carry their own score and
passed the 0.3 cut. -/
theorem tvScored_mem {sh : ScannedTVShow} {results : List MediaResult}
    {p : MediaResult × ℚ} (hp : p ∈ tvScored sh results) :
    (0.3 : ℚ) < p.2 ∧ p.2 = calculateTVMatchScore sh p.1 := by
  unfold tvScored at hp
  have h1 := List.of_mem_filter hp
  have h2 := List.mem_of_mem_filter hp
  rw [List.mem_map] at h2
  obtain ⟨r, _, hr⟩ := h2
  subst hr
  exact ⟨by simpa using h1, rfl⟩

theorem movieScored_mem {movie : ScannedMovie} {results : List MediaResult}
    {p : MediaResult × ℚ} (hp : p ∈ movieScored movie results) :
    (0.3 : ℚ) < p.2 ∧ p.2 = calculateMovieMatchScore movie p.1 := by
  unfold movieScored at hp
  have h1 := List.of_mem_filter hp
  have h2 := List.mem_of_mem_filter hp
  rw [List.mem_map] at h2
  obtain ⟨r, _, hr⟩ := h2
  subst hr
  exact ⟨by simpa using h1, rfl⟩

/-! ### Claim C1 -/

unseal Rat.ofScientific Rat.add Rat.mul Rat.inv Rat.sub in
/-- C1 counterexample: the movie matcher never consults the collection
store.  For a movie whose top candidate (id 9, score 0.875) is present
in a collection containing every id, the status is `matched`, not
`already_in_collection`. -/
theorem C1_counterexample :
    collAll 9 = true ∧
    (matchSingleMovie movieA [resM]).selected_match = some resM ∧
    (matchSingleMovie movieA [resM]).match_status = "matched" ∧
    ("matched" : String) ≠ "already_in_collection" := by
  refine ⟨rfl, by decide, by decide, by decide⟩

/-- C1 (amended): for a scanned TV show whose top surviving candidate
is already in the collection store, the status is
`already_in_collection` with that candidate selected, regardless of the
score; movies, however, are never checked against the collection: no
movie match ever carries the `already_in_collection` status. -/
theorem C1_theorem :
    (∀ (sh : ScannedTVShow) (results : List MediaResult) (ch : Nat → Bool) (th : ℚ)
        (b : MediaResult × ℚ) (rest : List (MediaResult × ℚ)),
      tvScoredSorted sh results = b :: rest → ch b.1.id = true →
        (matchSingleTVShow sh results ch th).match_status = "already_in_collection" ∧
        (matchSingleTVShow sh results ch th).selected_match = some b.1) ∧
    (∀ (movie : ScannedMovie) (results : List MediaResult),
      (matchSingleMovie movie results).match_status ≠ "already_in_collection") := by
  constructor
  · intro sh results ch th b rest hsorted hch
    obtain ⟨b1, b2⟩ := b
    have hred : matchSingleTVShow sh results ch th =
        { scanned_show := sh,
          tmdb_matches := (((b1, b2) :: rest).take 10).map Prod.fst,
          selected_match := some b1, confidence_score := b2,
          match_status := "already_in_collection" } := by
      simp only [matchSingleTVShow, hsorted]
      rw [if_pos (by simp [hch])]
    rw [hred]
    exact ⟨rfl, rfl⟩
  · intro movie results
    rcases h : movieScoredSorted movie results with _ | ⟨⟨b1, b2⟩, rest⟩
    · simp only [matchSingleMovie, h]
      exact (by decide : ("pending" : String) ≠ "already_in_collection")
    · simp only [matchSingleMovie, h]
      split
      · exact (by decide : ("matched" : String) ≠ "already_in_collection")
      · exact (by decide : ("pending" : String) ≠ "already_in_collection")

unseal Rat.ofScientific Rat.add Rat.mul Rat.inv Rat.sub in
/-- C1 witness: the amended theorem at a concrete input: one exact-title
candidate scoring 0.7, a collection containing its id, any threshold. -/
theorem C1_witness :
    tvScoredSorted showA [resA] = [(resA, 0.7)] ∧
    collAll resA.id = true ∧
    (matchSingleTVShow showA [resA] collAll 0.8).match_status = "already_in_collection" ∧
    (matchSingleTVShow showA [resA] collAll 0.8).selected_match = some resA := by
  have h := C1_theorem.1 showA [resA] collAll 0.8 (resA, 0.7) [] (by decide) rfl
  exact ⟨by decide, rfl, h.1, h.2⟩

/-! ### Claim C2 -/

unseal Rat.ofScientific Rat.add Rat.mul Rat.inv Rat.sub in
/-- C2 counterexample: a movie whose surviving top candidate scores
0.725, below the movie threshold 0.85, is left with the initial status
`pending`, not `needs_review`; the movie threshold is the fixed class
constant, not the configurable setting. -/
theorem C2_counterexample :
    movieScoredSorted movieA [resM2] = [(resM2, 0.725)] ∧
    (0.725 : ℚ) < AUTO_MATCH_THRESHOLD ∧
    (matchSingleMovie movieA [resM2]).match_status = "pending" ∧
    ("pending" : String) ≠ "needs_review" := by
  refine ⟨by decide, by decide, by decide, by decide⟩

/-- C2 (amended): for a TV show with a surviving top candidate that is
not in the collection, a score at or above the configured threshold
gives `matched` with the top candidate selected, and a score below it
gives `needs_review` with nothing selected; for a movie with a
surviving top candidate, a score at or above the fixed 0.85 constant
gives `matched` with the top candidate selected, and a score below it
leaves the status `pending` with nothing selected (no collection check,
no `needs_review`). -/
theorem C2_theorem :
    (∀ (sh : ScannedTVShow) (results : List MediaResult) (ch : Nat → Bool) (th : ℚ)
        (b : MediaResult × ℚ) (rest : List (MediaResult × ℚ)),
      tvScoredSorted sh results = b :: rest → ch b.1.id = false →
        (th ≤ b.2 →
          (matchSingleTVShow sh results ch th).match_status = "matched" ∧
          (matchSingleTVShow sh results ch th).selected_match = some b.1) ∧
        (b.2 < th →
          (matchSingleTVShow sh results ch th).match_status = "needs_review" ∧
          (matchSingleTVShow sh results ch th).selected_match = none)) ∧
    (∀ (movie : ScannedMovie) (results : List MediaResult)
        (b : MediaResult × ℚ) (rest : List (MediaResult × ℚ)),
      movieScoredSorted movie results = b :: rest →
        (AUTO_MATCH_THRESHOLD ≤ b.2 →
          (matchSingleMovie movie results).match_status = "matched" ∧
          (matchSingleMovie movie results).selected_match = some b.1) ∧
        (b.2 < AUTO_MATCH_THRESHOLD →
          (matchSingleMovie movie results).match_status = "pending" ∧
          (matchSingleMovie movie results).selected_match = none)) := by
  constructor
  · intro sh results ch th b rest hsorted hch
    obtain ⟨b1, b2⟩ := b
    constructor
    · intro hth
      have hred : matchSingleTVShow sh results ch th =
          { scanned_show := sh,
            tmdb_matches := (((b1, b2) :: rest).take 10).map Prod.fst,
            selected_match := some b1, confidence_score := b2,
            match_status := "matched" } := by
        simp only [matchSingleTVShow, hsorted]
        rw [if_neg (by simp [hch]), if_pos hth]
      rw [hred]
      exact ⟨rfl, rfl⟩
    · intro hlt
      have hred : matchSingleTVShow sh results ch th =
          { scanned_show := sh,
            tmdb_matches := (((b1, b2) :: rest).take 10).map Prod.fst,
            selected_match := none, confidence_score := b2,
            match_status := "needs_review" } := by
        simp only [matchSingleTVShow, hsorted]
        rw [if_neg (by simp [hch]), if_neg (not_le.mpr hlt)]
      rw [hred]
      exact ⟨rfl, rfl⟩
  · intro movie results b rest hsorted
    obtain ⟨b1, b2⟩ := b
    constructor
    · intro hth
      have hred : matchSingleMovie movie results =
          { scanned_movie := movie,
            tmdb_matches := (((b1, b2) :: rest).take 10).map Prod.fst,
            selected_match := some b1, confidence_score := b2,
            match_status := "matched" } := by
        simp only [matchSingleMovie, hsorted]
        rw [if_pos hth]
      rw [hred]
      exact ⟨rfl, rfl⟩
    · intro hlt
      have hred : matchSingleMovie movie results =
          { scanned_movie := movie,
            tmdb_matches := (((b1, b2) :: rest).take 10).map Prod.fst,
            selected_match := none, confidence_score := b2,
            match_status := "pending" } := by
        simp only [matchSingleMovie, hsorted]
        rw [if_neg (not_le.mpr hlt)]
      rw [hred]
      exact ⟨rfl, rfl⟩

unseal Rat.ofScientific Rat.add Rat.mul Rat.inv Rat.sub in
/-- C2 witness: the amended theorem at concrete inputs covering all four
branches: TV at and below the configured threshold, movie at and below
the fixed 0.85 constant. -/
theorem C2_witness :
    (matchSingleTVShow showA [resA] collNone 0.7).match_status = "matched" ∧
    (matchSingleTVShow showA [resA] collNone 0.7).selected_match = some resA ∧
    (matchSingleTVShow showA [resA] collNone 0.8).match_status = "needs_review" ∧
    (matchSingleTVShow showA [resA] collNone 0.8).selected_match = none ∧
    (matchSingleMovie movieA [resM]).match_status = "matched" ∧
    (matchSingleMovie movieA [resM2]).match_status = "pending" := by
  have h1 := (C2_theorem.1 showA [resA] collNone 0.7 (resA, 0.7) [] (by decide) rfl).1 (by decide)
  have h2 := (C2_theorem.1 showA [resA] collNone 0.8 (resA, 0.7) [] (by decide) rfl).2 (by decide)
  have h3 := (C2_theorem.2 movieA [resM] (resM, 0.875) [] (by decide)).1 (by decide)
  have h4 := (C2_theorem.2 movieA [resM2] (resM2, 0.725) [] (by decide)).2 (by decide)
  exact ⟨h1.1, h1.2, h2.1, h2.2, h3.1, h4.1⟩

/-! ### Claim C7 -/

unseal Rat.ofScientific Rat.add Rat.mul Rat.inv Rat.sub in
/-- C7 counterexample: two candidates with identical scores survive in
catalog order, so the candidate list is NOT strictly descending by
score: strict descent fails on ties, which the stable sort resolves by
input position. -/
theorem C7_counterexample :
    (matchSingleTVShow showA [resA, resA2] collNone 0.8).tmdb_matches = [resA, resA2] ∧
    calculateTVMatchScore showA resA = calculateTVMatchScore showA resA2 ∧
    ¬ (matchSingleTVShow showA [resA, resA2] collNone 0.8).tmdb_matches.Pairwise
        (fun a b => calculateTVMatchScore showA b < calculateTVMatchScore showA a) := by
  have hm : (matchSingleTVShow showA [resA, resA2] collNone 0.8).tmdb_matches =
      [resA, resA2] := by decide
  have heq : calculateTVMatchScore showA resA = calculateTVMatchScore showA resA2 := by decide
  refine ⟨hm, heq, ?_⟩
  rw [hm]
  intro h
  have h2 := List.rel_of_pairwise_cons h (List.mem_cons_self _ _)
  rw [heq] at h2
  exact lt_irrefl _ h2

/-- C7 (amended): each match carries at most 10 candidates; every
retained candidate scores strictly above 0.3; the list is ordered by
score in non-increasing (not strictly decreasing) order; and the sort
is stable, so candidates with any fixed score value keep the catalog
return order. -/
theorem C7_theorem :
    (∀ (sh : ScannedTVShow) (results : List MediaResult) (ch : Nat → Bool) (th : ℚ),
      (matchSingleTVShow sh results ch th).tmdb_matches.length ≤ 10) ∧
    (∀ (movie : ScannedMovie) (results : List MediaResult),
      (matchSingleMovie movie results).tmdb_matches.length ≤ 10) ∧
    (∀ (sh : ScannedTVShow) (results : List MediaResult) (ch : Nat → Bool) (th : ℚ)
        (r : MediaResult), r ∈ (matchSingleTVShow sh results ch th).tmdb_matches →
      (0.3 : ℚ) < calculateTVMatchScore sh r) ∧
    (∀ (movie : ScannedMovie) (results : List MediaResult)
        (r : MediaResult), r ∈ (matchSingleMovie movie results).tmdb_matches →
      (0.3 : ℚ) < calculateMovieMatchScore movie r) ∧
    (∀ (sh : ScannedTVShow) (results : List MediaResult) (ch : Nat → Bool) (th : ℚ),
      (matchSingleTVShow sh results ch th).tmdb_matches.Pairwise
        (fun a b => calculateTVMatchScore sh b ≤ calculateTVMatchScore sh a)) ∧
    (∀ (movie : ScannedMovie) (results : List MediaResult),
      (matchSingleMovie movie results).tmdb_matches.Pairwise
        (fun a b => calculateMovieMatchScore movie b ≤ calculateMovieMatchScore movie a)) ∧
    (∀ (sh : ScannedTVShow) (results : List MediaResult) (q : ℚ),
      (tvScoredSorted sh results).filter (fun p => decide (p.2 = q)) =
        (tvScored sh results).filter (fun p => decide (p.2 = q))) ∧
    (∀ (movie : ScannedMovie) (results : List MediaResult) (q : ℚ),
      (movieScoredSorted movie results).filter (fun p => decide (p.2 = q)) =
        (movieScored movie results).filter (fun p => decide (p.2 = q))) := by
  refine ⟨?_, ?_, ?_, ?_, ?_, ?_, ?_, ?_⟩
  · intro sh results ch th
    rw [matchSingleTVShow_tmdb_matches, List.length_map, List.length_take]
    exact Nat.min_le_left _ _
  · intro movie results
    rw [matchSingleMovie_tmdb_matches, List.length_map, List.length_take]
    exact Nat.min_le_left _ _
  · intro sh results ch th r hr
    rw [matchSingleTVShow_tmdb_matches, List.mem_map] at hr
    obtain ⟨p, hp, hpr⟩ := hr
    have hp2 : p ∈ tvScoredSorted sh results := List.mem_of_mem_take hp
    have hp3 : p ∈ tvScored sh results :=
      (pySortDesc_perm Prod.snd (tvScored sh results)).mem_iff.mp hp2
    obtain ⟨hgt, hcalc⟩ := tvScored_mem hp3
    rw [← hpr, ← hcalc]
    exact hgt
  · intro movie results r hr
    rw [matchSingleMovie_tmdb_matches, List.mem_map] at hr
    obtain ⟨p, hp, hpr⟩ := hr
    have hp2 : p ∈ movieScoredSorted movie results := List.mem_of_mem_take hp
    have hp3 : p ∈ movieScored movie results :=
      (pySortDesc_perm Prod.snd (movieScored movie results)).mem_iff.mp hp2
    obtain ⟨hgt, hcalc⟩ := movieScored_mem hp3
    rw [← hpr, ← hcalc]
    exact hgt
  · intro sh results ch th
    rw [matchSingleTVShow_tmdb_matches, List.pairwise_map]
    have hs : (tvScoredSorted sh results).Pairwise (fun a b => b.2 ≤ a.2) :=
      pySortDesc_sorted Prod.snd (tvScored sh results)
    have ht : ((tvScoredSorted sh results).take 10).Pairwise (fun a b => b.2 ≤ a.2) :=
      hs.sublist (List.take_sublist 10 _)
    refine List.Pairwise.imp_of_mem ?_ ht
    intro a b ha hb hr
    have ha2 := tvScored_mem ((pySortDesc_perm Prod.snd _).mem_iff.mp (List.mem_of_mem_take ha))
    have hb2 := tvScored_mem ((pySortDesc_perm Prod.snd _).mem_iff.mp (List.mem_of_mem_take hb))
    rw [← ha2.2, ← hb2.2]
    exact hr
  · intro movie results
    rw [matchSingleMovie_tmdb_matches, List.pairwise_map]
    have hs : (movieScoredSorted movie results).Pairwise (fun a b => b.2 ≤ a.2) :=
      pySortDesc_sorted Prod.snd (movieScored movie results)
    have ht : ((movieScoredSorted movie results).take 10).Pairwise (fun a b => b.2 ≤ a.2) :=
      hs.sublist (List.take_sublist 10 _)
    refine List.Pairwise.imp_of_mem ?_ ht
    intro a b ha hb hr
    have ha2 := movieScored_mem ((pySortDesc_perm Prod.snd _).mem_iff.mp (List.mem_of_mem_take ha))
    have hb2 := movieScored_mem ((pySortDesc_perm Prod.snd _).mem_iff.mp (List.mem_of_mem_take hb))
    rw [← ha2.2, ← hb2.2]
    exact hr
  · intro sh results q
    exact pySortDesc_stable Prod.snd (tvScored sh results) q
  · intro movie results q
    exact pySortDesc_stable Prod.snd (movieScored movie results) q

unseal Rat.ofScientific Rat.add Rat.mul Rat.inv Rat.sub in
/-- C7 witness: the amended theorem at a concrete two-candidate tie:
both candidates survive, the list is within bounds, each score is above
0.3, and the tie keeps catalog order. -/
theorem C7_witness :
    (matchSingleTVShow showA [resA, resA2] collNone 0.8).tmdb_matches.length ≤ 10 ∧
    ((0.3 : ℚ) < calculateTVMatchScore showA resA) ∧
    (matchSingleTVShow showA [resA, resA2] collNone 0.8).tmdb_matches.Pairwise
      (fun a b => calculateTVMatchScore showA b ≤ calculateTVMatchScore showA a) ∧
    (tvScoredSorted showA [resA, resA2]).filter (fun p => decide (p.2 = (0.7 : ℚ))) =
      (tvScored showA [resA, resA2]).filter (fun p => decide (p.2 = (0.7 : ℚ))) := by
  have h := C7_theorem
  refine ⟨h.1 showA [resA, resA2] collNone 0.8, ?_, h.2.2.2.2.1 showA [resA, resA2] collNone 0.8,
    h.2.2.2.2.2.2.1 showA [resA, resA2] 0.7⟩
  exact h.2.2.1 showA [resA, resA2] collNone 0.8 resA (by decide)

/-! ### Claim C3 -/

/-- Auxiliary: looking up `sid` after the in-place map update finds the
new record whenever the key was present. -/
theorem find?_setSession_present :
    ∀ (t : Registry) (sid : String) (v : SessionData),
      (t.find? (fun p => p.1 == sid)).isSome →
      (t.map (fun p => if p.1 == sid then (sid, v) else p)).find? (fun p => p.1 == sid) =
        some (sid, v) := by
  intro t sid v
  induction t with
  | nil => intro h; simp at h
  | cons p rest ih =>
    intro h
    by_cases hp : (p.1 == sid) = true
    · simp [List.find?, hp]
    · rw [List.find?_cons_of_neg (p := fun q : String × SessionData => q.1 == sid) rest hp] at h
      rw [List.map_cons, if_neg hp,
        List.find?_cons_of_neg (p := fun q : String × SessionData => q.1 == sid) _ hp]
      exact ih h

/-- Auxiliary: looking up `sid` after appending a fresh entry finds it
when the key was absent. -/
theorem find?_setSession_absent :
    ∀ (t : Registry) (sid : String) (v : SessionData),
      t.find? (fun p => p.1 == sid) = none →
      (t ++ [(sid, v)]).find? (fun p => p.1 == sid) = some (sid, v) := by
  intro t sid v
  induction t with
  | nil => intro _; simp [List.find?]
  | cons p rest ih =>
    intro h
    by_cases hp : (p.1 == sid) = true
    · rw [List.find?_cons_of_pos (p := fun q : String × SessionData => q.1 == sid) rest hp] at h
      simp at h
    · rw [List.find?_cons_of_neg (p := fun q : String × SessionData => q.1 == sid) rest hp] at h
      rw [List.cons_append, List.find?_cons_of_neg (p := fun q : String × SessionData => q.1 == sid) _ hp]
      exact ih h

/-- Writing a session and reading it back under the same id gives the
written record, whether the id was present or fresh. -/
theorem lookupSession_setSession :
    ∀ (reg : Registry) (sid : String) (v : SessionData),
      lookupSession (setSession reg sid v) sid = some v := by
  intro reg sid v
  unfold lookupSession setSession
  by_cases h : (reg.find? (fun p => p.1 == sid)).isSome
  · rw [if_pos h, find?_setSession_present reg sid v h]
    rfl
  · rw [if_neg h, find?_setSession_absent reg sid v (Option.not_isSome_iff_eq_none.mp h)]
    rfl

/-- A session record sitting in `preview`. -/
def previewSession : SessionData :=
  { media_type := "tv", library_paths := ["/tv"], status := "preview",
    progress := 1, message := "Ready for review" }

/-- A registry with one preview session. -/
def regPreview : Registry := [("import_tv_5", previewSession)]

/-- The session record after the execute endpoint accepts it. -/
def importingSession (sess : SessionData) : SessionData :=
  { sess with status := "importing", message := "Importing matched shows...", progress := 0 }

/-- C3: every status assignment in the session code respects the chain
scanning, matching, preview, importing, complete, with error reachable
from every non-terminal status; the execute endpoint succeeds exactly
when the session exists in `preview`, an HTTP failure leaves the
registry unchanged, and a success moves that session to `importing`
along a legal transition. -/
theorem C3_theorem :
    (∀ s t, SessionStep s t → specAllowedStep s t) ∧
    (∀ s : String, s ∈ [("scanning" : String), "matching", "preview", "importing"] →
      Relation.ReflTransGen SessionStep s ("error")) ∧
    (∀ (reg : Registry) (sid : String),
      (∃ reg2, executeImport reg sid = .ok reg2) ↔
      (∃ sess, lookupSession reg sid = some sess ∧ sess.status = "preview")) ∧
    (∀ (reg : Registry) (sid e : String),
      executeImport reg sid = .error e → runExecuteEndpoint reg sid = (reg, some e)) ∧
    (∀ (reg reg2 : Registry) (sid : String) (sess : SessionData),
      lookupSession reg sid = some sess → executeImport reg sid = .ok reg2 →
      sess.status = "preview" ∧
      lookupSession reg2 sid = some (importingSession sess) ∧
      SessionStep sess.status ("importing")) := by
  refine ⟨?_, ?_, ?_, ?_, ?_⟩
  · intro s t h
    cases h <;> (unfold specAllowedStep; decide)
  · intro s hs
    simp at hs
    rcases hs with rfl | rfl | rfl | rfl
    · exact Relation.ReflTransGen.single SessionStep.scanErr
    · exact Relation.ReflTransGen.single SessionStep.matchErr
    · exact Relation.ReflTransGen.head SessionStep.execBegin
        (Relation.ReflTransGen.single SessionStep.importErr)
    · exact Relation.ReflTransGen.single SessionStep.importErr
  · intro reg sid
    constructor
    · rintro ⟨reg2, h⟩
      unfold executeImport at h
      rcases hl : lookupSession reg sid with _ | sess
      · rw [hl] at h
        simp at h
      · rw [hl] at h
        dsimp only at h
        split at h
        · simp at h
        · rename_i hcond
          exact ⟨sess, rfl, not_not.mp hcond⟩
    · rintro ⟨sess, hl, hst⟩
      refine ⟨setSession reg sid (importingSession sess), ?_⟩
      unfold executeImport
      rw [hl]
      dsimp only
      rw [if_neg (by simp [hst])]
      rfl
  · intro reg sid e h
    unfold runExecuteEndpoint
    rw [h]
  · intro reg reg2 sid sess hl hok
    unfold executeImport at hok
    rw [hl] at hok
    dsimp only at hok
    split at hok
    · simp at hok
    · rename_i hcond
      have hst : sess.status = "preview" := not_not.mp hcond
      refine ⟨hst, ?_, ?_⟩
      · injection hok with hok
        rw [← hok]
        exact lookupSession_setSession reg sid _
      · rw [hst]
        exact SessionStep.execBegin

/-- C3 witness: the theorem applied at concrete registries: a legal
step, error reachability from preview, a successful execute on a
preview session, and an unchanged registry on a failed execute. -/
theorem C3_witness :
    specAllowedStep ("scanning") ("matching") ∧
    Relation.ReflTransGen SessionStep ("preview") ("error") ∧
    (∃ reg2, executeImport regPreview ("import_tv_5") = .ok reg2) ∧
    runExecuteEndpoint ([] : Registry) ("import_tv_5") =
      ([], some ("Session not found")) := by
  have h := C3_theorem
  refine ⟨h.1 _ _ SessionStep.scanOk, h.2.1 ("preview") (by decide), ?_, ?_⟩
  · exact (h.2.2.1 regPreview ("import_tv_5")).mpr ⟨previewSession, rfl, rfl⟩
  · exact h.2.2.2.1 ([] : Registry) ("import_tv_5") ("Session not found") rfl

/-! ### Claim C9 -/

/-- An empty filesystem with permissive permissions. -/
def fsEmpty : FileSystem :=
  { files := [], writable := fun _ => true, canCreateDir := fun _ => true }

/-- An operation whose source does not exist. -/
def opGhost : RenameOperation :=
  { current_path := ("/a/b.mkv").toList, suggested_path := ("/c/d.mkv").toList,
    current_name := ("b.mkv").toList, suggested_name := ("d.mkv").toList,
    operation_type := "organize" }

/-- C9 counterexample: in dry-run mode the executor performs no check at
all: the guarded block is skipped and every operation is counted
successful, so an operation whose source is missing is reported
successful by the dry run but invalid by the validator: the verdicts
are not equivalent. -/
theorem C9_counterexample :
    (executeRenameOperations [opGhost] true fsEmpty).1.successful = 1 ∧
    (executeRenameOperations [opGhost] true fsEmpty).1.failed = 0 ∧
    (validateRenameOperations [opGhost] fsEmpty).valid = 0 ∧
    (validateRenameOperations [opGhost] fsEmpty).invalid = 1 := by
  refine ⟨by decide, by decide, by decide, by decide⟩

/-- C9 (amended): dry-run execution touches nothing and reports every
operation successful, with no validation-equivalent checking (the
separate validator can fail operations the dry run reports as
successes); in real execution each operation increments exactly one
counter and a failure never aborts the loop, so
successful + failed = total always holds. -/
theorem C9_theorem :
    (∀ (ops : List RenameOperation) (fs : FileSystem),
      (executeRenameOperations ops true fs).2 = fs) ∧
    (∀ (ops : List RenameOperation) (fs : FileSystem),
      (executeRenameOperations ops true fs).1.successful = ops.length ∧
      (executeRenameOperations ops true fs).1.failed = 0) ∧
    (∀ (ops : List RenameOperation) (dryRun : Bool) (fs : FileSystem),
      (executeRenameOperations ops dryRun fs).1.successful +
        (executeRenameOperations ops dryRun fs).1.failed =
        (executeRenameOperations ops dryRun fs).1.total_operations) := by
  have hgo : ∀ (dryRun : Bool) (ops : List RenameOperation) (res : ExecResults)
      (fs : FileSystem),
      ((executeRenameOpsGo dryRun ops (res, fs)).1.successful +
        (executeRenameOpsGo dryRun ops (res, fs)).1.failed =
        res.successful + res.failed + ops.length) ∧
      (executeRenameOpsGo dryRun ops (res, fs)).1.total_operations =
        res.total_operations ∧
      (dryRun = true →
        (executeRenameOpsGo dryRun ops (res, fs)).2 = fs ∧
        (executeRenameOpsGo dryRun ops (res, fs)).1.successful =
          res.successful + ops.length ∧
        (executeRenameOpsGo dryRun ops (res, fs)).1.failed = res.failed) := by
    intro dryRun ops
    induction ops with
    | nil =>
      intro res fs
      exact ⟨by simp [executeRenameOpsGo], by simp [executeRenameOpsGo],
        fun _ => ⟨rfl, by simp [executeRenameOpsGo], rfl⟩⟩
    | cons op rest ih =>
      intro res fs
      cases dryRun with
      | true =>
        simp only [executeRenameOpsGo, if_true]
        obtain ⟨ha, hb, hc⟩ := ih { res with successful := res.successful + 1 } fs
        obtain ⟨hc1, hc2, hc3⟩ := hc rfl
        refine ⟨?_, ?_, fun _ => ⟨hc1, ?_, hc3⟩⟩
        · rw [ha]
          simp only [List.length_cons]
          omega
        · rw [hb]
        · rw [hc2]
          simp only [List.length_cons]
          omega
      | false =>
        simp only [executeRenameOpsGo, Bool.false_eq_true, if_false]
        rcases hmv : fsMove fs op.current_path op.suggested_path with _ | fs2
        · simp only [hmv]
          obtain ⟨ha, hb, _⟩ := ih { res with failed := res.failed + 1, errors := res.errors ++ [op.current_path] } fs
          refine ⟨?_, ?_, fun hcontra => by simp at hcontra⟩
          · rw [ha]
            simp only [List.length_cons]
            omega
          · rw [hb]
        · simp only [hmv]
          obtain ⟨ha, hb, _⟩ := ih { res with successful := res.successful + 1 } fs2
          refine ⟨?_, ?_, fun hcontra => by simp at hcontra⟩
          · rw [ha]
            simp only [List.length_cons]
            omega
          · rw [hb]
  refine ⟨?_, ?_, ?_⟩
  · intro ops fs
    exact ((hgo true ops _ fs).2.2 rfl).1
  · intro ops fs
    have h := hgo true ops { total_operations := ops.length, successful := 0, failed := 0, errors := [], dry_run := true } fs
    constructor
    · rw [executeRenameOperations, (h.2.2 rfl).2.1]
      simp
    · rw [executeRenameOperations, (h.2.2 rfl).2.2]
  · intro ops dryRun fs
    have h := hgo dryRun ops { total_operations := ops.length, successful := 0, failed := 0, errors := [], dry_run := dryRun } fs
    rw [executeRenameOperations, h.1, h.2.1]
    simp

/-- C9 witness: the amended theorem at a concrete input: a one-operation
dry run over an empty filesystem mutates nothing, reports one success
and no failure, and the counters add up to the total. -/
theorem C9_witness :
    (executeRenameOperations [opGhost] true fsEmpty).2 = fsEmpty ∧
    (executeRenameOperations [opGhost] true fsEmpty).1.successful = 1 ∧
    (executeRenameOperations [opGhost] false fsEmpty).1.successful +
      (executeRenameOperations [opGhost] false fsEmpty).1.failed =
      (executeRenameOperations [opGhost] false fsEmpty).1.total_operations := by
  have h := C9_theorem
  exact ⟨h.1 [opGhost] fsEmpty, (h.2.1 [opGhost] fsEmpty).1,
    h.2.2 [opGhost] false fsEmpty⟩

/-! ### Claim C10 -/

/-- The session record a fresh start writes (import_media.py 96-107). -/
def freshSession (k : String) (paths : List String) : SessionData :=
  { media_type := k, library_paths := paths, status := "scanning",
    progress := 0, message := "Starting scan...", scanned_count := 0, matched_count := 0 }

/-- C10: the session id is the deterministic string
`import_kind_seconds`; two successful start calls of the same kind in
the same wall-clock second produce the identical id, and the second
call silently replaces the first session in the registry (the stored
library paths are those of the second request). -/
theorem C10_theorem :
    ∀ (cfg : List String) (reg : Registry) (k : String) (paths1 paths2 : List String)
      (t : Nat) (sid1 : String) (reg2 : Registry) (sid2 : String) (reg3 : Registry),
      startImportSession cfg reg k paths1 t = .ok (sid1, reg2) →
      startImportSession cfg reg2 k paths2 t = .ok (sid2, reg3) →
      sid1 = sid2 ∧ sid1 = sessionIdFor k t ∧
      lookupSession reg3 sid1 = some (freshSession k paths2) := by
  intro cfg reg k paths1 paths2 t sid1 reg2 sid2 reg3 h1 h2
  unfold startImportSession at h1 h2
  split at h1
  · simp at h1
  · split at h1
    · simp at h1
    · split at h1
      · simp at h1
      · split at h2
        · simp at h2
        · split at h2
          · simp at h2
          · split at h2
            · simp at h2
            · simp only [Except.ok.injEq, Prod.mk.injEq] at h1 h2
              obtain ⟨hsid1, hreg2⟩ := h1
              obtain ⟨hsid2, hreg3⟩ := h2
              refine ⟨by rw [← hsid1, ← hsid2], hsid1.symm, ?_⟩
              rw [← hreg3, ← hsid1]
              exact lookupSession_setSession reg2 (sessionIdFor k t) _

/-- C10 witness: two starts for kind `tv` at second 5 against the same
configured roots: both succeed, the ids coincide, and the registry
holds the second request library paths. -/
theorem C10_witness :
    ("import_tv_5" : String) = sessionIdFor ("tv") 5 ∧
    lookupSession
      (setSession (setSession [] ("import_tv_5") (freshSession ("tv") ["/tv"]))
        ("import_tv_5") (freshSession ("tv") ["/tv2"])) ("import_tv_5") =
      some (freshSession ("tv") ["/tv2"]) := by
  have h := C10_theorem ["/tv", "/tv2"] [] ("tv") ["/tv"] ["/tv2"] 5
    ("import_tv_5") (setSession [] ("import_tv_5") (freshSession ("tv") ["/tv"]))
    ("import_tv_5")
    (setSession (setSession [] ("import_tv_5") (freshSession ("tv") ["/tv"]))
      ("import_tv_5") (freshSession ("tv") ["/tv2"]))
    (by rfl) (by rfl)
  exact ⟨h.2.1, h.2.2⟩


/-! ### Claim C8 -/

/-- The Python minimum never exceeds its second argument. -/
theorem pyMin_le_right (a b : ℚ) : pyMin a b ≤ b := by
  unfold pyMin
  split
  · assumption
  · exact le_refl b

/-- The Python minimum of nonnegative numbers is nonnegative. -/
theorem pyMin_nonneg (a b : ℚ) (ha : 0 ≤ a) (hb : 0 ≤ b) : 0 ≤ pyMin a b := by
  unfold pyMin
  split
  · exact ha
  · exact hb

/-- The matching ratio is nonnegative. -/
theorem seqRatio_nonneg (a b : List Char) : 0 ≤ seqRatio a b := by
  unfold seqRatio
  split
  · norm_num
  · positivity

/-- The title-similarity blend is nonnegative for any pair of titles. -/
theorem calculateTitleSimilarity_nonneg (t1 t2 : List Char) :
    0 ≤ calculateTitleSimilarity t1 t2 := by
  unfold calculateTitleSimilarity
  dsimp only
  split
  · norm_num
  · split
    · apply add_nonneg
      · exact mul_nonneg (seqRatio_nonneg _ _) (by norm_num)
      · apply mul_nonneg _ (by norm_num)
        split
        · positivity
        · exact le_refl 0
    · exact seqRatio_nonneg _ _

/-- C8: for every scanned show or movie and every catalog candidate,
including ones with missing year, rating 0 or popularity 0 (and even
out-of-range collaborator data), the weighted confidence score lies in
the closed interval from 0 to 1: every component of the sum is
nonnegative and the final cap bounds it by 1. -/
theorem C8_theorem :
    (∀ (sh : ScannedTVShow) (r : MediaResult),
      0 ≤ calculateTVMatchScore sh r ∧ calculateTVMatchScore sh r ≤ 1) ∧
    (∀ (movie : ScannedMovie) (r : MediaResult),
      0 ≤ calculateMovieMatchScore movie r ∧ calculateMovieMatchScore movie r ≤ 1) := by
  constructor
  · intro sh r
    unfold calculateTVMatchScore
    dsimp only
    refine ⟨pyMin_nonneg _ _ ?_ (by norm_num), pyMin_le_right _ _⟩
    have ht := calculateTitleSimilarity_nonneg sh.show_name r.title
    apply add_nonneg
    · apply add_nonneg
      · apply add_nonneg
        · exact mul_nonneg ht (by norm_num)
        · split_ifs <;> norm_num
      · split_ifs with h
        · exact pyMin_nonneg _ _ (by norm_num) (div_nonneg (by linarith) (by norm_num))
        · exact le_refl 0
    · split_ifs with h
      · exact pyMin_nonneg _ _ (by norm_num) (div_nonneg (by linarith) (by norm_num))
      · exact le_refl 0
  · intro movie r
    unfold calculateMovieMatchScore
    dsimp only
    refine ⟨pyMin_nonneg _ _ ?_ (by norm_num), pyMin_le_right _ _⟩
    have ht := calculateTitleSimilarity_nonneg movie.title r.title
    apply add_nonneg
    · apply add_nonneg
      · apply add_nonneg
        · exact mul_nonneg ht (by norm_num)
        · split_ifs <;> norm_num
      · split_ifs with h
        · exact pyMin_nonneg _ _ (by norm_num) (div_nonneg (by linarith) (by norm_num))
        · exact le_refl 0
    · split_ifs with h
      · exact pyMin_nonneg _ _ (by norm_num) (div_nonneg (by linarith) (by norm_num))
      · exact le_refl 0

end Caddyy
